import Mathlib

/-!
# velo_graphslam: local occupancy grids and their fusion

A shallow embedding of `src/graph.cpp` (`Graph::addNode`, `Graph::generateMap`,
`Graph::scanToOccGrid`) and the properties of its grid pipeline.

Modelling conventions.

* `double` values are rationals and `+ - * /` and the comparisons on them are exact;
  `round` is the C function (half away from zero), `floor` is exact.
* The C library calls `cos`, `sin`, `atan2`, `sqrt` are the fields of a `Libm` value that
  every operation takes as a parameter, so a statement quantified over `Libm` holds for
  whatever the library returns.  `ratLibm` is one such library, with rational values.
* An operation returns `none` when the C++ execution has no defined result: an access
  outside a `std::vector`, a `double` converted to an integer type that cannot hold it, a
  signed overflow, a `resize` to a negative length, a division by zero whose quotient is
  then converted to an integer, a loop that cannot terminate.
* `graph.h` (the declarations of `ScanGrid`, `Node`, `Edge` and of the members of
  `Graph`) is not part of the sources.  The fields of `ScanGrid` are integers, as the data
  model of the specification has them, and are held exactly; variables the functions
  declare themselves (`int`, `unsigned int`) follow their declared type.
-/

namespace GraphSlam

/-! ## Numeric helpers -/

/-- The C library functions used by `graph.cpp`. -/
structure Libm where
  cos : ℚ → ℚ
  sin : ℚ → ℚ
  atan2 : ℚ → ℚ → ℚ
  sqrt : ℚ → ℚ

/-- Constant `N_INF` of graph.cpp. -/
def N_INF : Int := -9999999

/-- Constant `P_INF` of graph.cpp. -/
def P_INF : Int := 9999999

/-- Constant `PI` of graph.cpp, `3.141592654`. -/
def PI : ℚ := 3141592654 / 1000000000

/-- C `round`: to the nearest integer, halfway cases away from zero. -/
def cround (q : ℚ) : Int :=
  if 0 ≤ q then ⌊q + 1 / 2⌋ else -⌊-q + 1 / 2⌋

/-- Truncation toward zero, the value of a `double` converted to an integer type. -/
def ctrunc (q : ℚ) : Int :=
  if 0 ≤ q then ⌊q⌋ else ⌈q⌉

/-- Conversion of a `double` to `int`: truncation, undefined when the truncated value is
not an `int`. -/
def toInt32 (q : ℚ) : Option Int :=
  if -2147483648 ≤ ctrunc q ∧ ctrunc q ≤ 2147483647 then some (ctrunc q) else none

/-- Conversion of a `double` to `uint32` (`cur_map.info.height = map_height`). -/
def toUInt32 (q : ℚ) : Option Nat :=
  if 0 ≤ ctrunc q ∧ ctrunc q ≤ 4294967295 then some (ctrunc q).toNat else none

/-- Length of a vector made from the `double` `map_size`: the truncated value.  There is
no result for a negative one, nor for `map_size > 4294967295`, which the `unsigned int`
counter of the resolve loop never reaches. -/
def toSize (q : ℚ) : Option Nat :=
  if 0 ≤ ctrunc q ∧ q ≤ 4294967295 then some (ctrunc q).toNat else none

/-- A `for` loop over the values `xs` whose body may have no result; `continue` is a body
that returns the state as it is. -/
def loopM {α σ : Type} : List α → (α → σ → Option σ) → σ → Option σ
  | [], _, s => some s
  | x :: xs, body, s =>
    match body x s with
    | none => none
    | some s1 => loopM xs body s1

/-- Assignment `v[i] = x` to a `std::vector<int>`: no result outside the vector. -/
def store (v : List Int) (i : Int) (x : Int) : Option (List Int) :=
  if 0 ≤ i ∧ i < v.length then some (v.set i.toNat x) else none

/-- Read `v[i]` of a `std::vector<int>`: no result outside the vector. -/
def load (v : List Int) (i : Int) : Option Int :=
  if 0 ≤ i then v[i.toNat]? else none

/-- Statement `v[i]++` on a `std::vector<int>`. -/
def bump (v : List Int) (i : Int) : Option (List Int) :=
  match load v i with
  | none => none
  | some c => if c = 2147483647 then none else store v i (c + 1)

/-- `std::vector::resize(n)`: keeps the first `n` elements, pads with zeros. -/
def resize (v : List Int) (n : Nat) : List Int :=
  v.take n ++ List.replicate (n - v.length) 0

/-! ## Data model -/

/-- Position and yaw of a `geometry_msgs::Pose` (`pose.x`, `pose.y`, `tf::getYaw(pose)`). -/
structure Pose where
  x : ℚ
  y : ℚ
  theta : ℚ
  deriving DecidableEq

/-- The fields of `sensor_msgs::LaserScan` that graph.cpp reads. -/
structure LaserScan where
  angle_min : ℚ
  angle_increment : ℚ
  range_max : ℚ
  ranges : List ℚ
  deriving DecidableEq

/-- Local grid `ScanGrid`. -/
structure ScanGrid where
  ymax : Int
  ymin : Int
  xmax : Int
  xmin : Int
  height : Int
  width : Int
  resolution : ℚ
  grid : List Int
  deriving DecidableEq

/-- Graph node: `n.pose`, `n.scan`, `n.scan_grid`. -/
structure Node where
  pose : Pose
  scan : LaserScan
  scan_grid : ScanGrid
  deriving DecidableEq

/-- Graph edge. -/
structure Edge where
  parent : Node
  child : Node
  deriving DecidableEq

/-- The fields of `nav_msgs::OccupancyGrid` that generateMap writes. -/
structure OccupancyGrid where
  height : Nat
  width : Nat
  resolution : ℚ
  data : List Int
  deriving DecidableEq

/-- Members of `Graph`. -/
structure Graph where
  resolution : ℚ
  range_threshold : ℚ
  node_list : List Node
  edge_list : List Edge
  last_node : Node
  cur_map : OccupancyGrid
  deriving DecidableEq

/-- The four running bounds `xmax, xmin, ymax, ymin` of an extent loop. -/
structure Bounds where
  xmax : ℚ
  xmin : ℚ
  ymax : ℚ
  ymin : ℚ
  deriving DecidableEq

/-- Initial value `xmax = N_INF, xmin = P_INF, ymax = N_INF, ymin = P_INF`. -/
def Bounds.init : Bounds := ⟨N_INF, P_INF, N_INF, P_INF⟩

/-! ## Graph::scanToOccGrid -/

/-- Beam angle `pose_theta + min_angle + i * angle_incr`. -/
def beamAngle (scan : LaserScan) (pose : Pose) (i : Nat) : ℚ :=
  pose.theta + scan.angle_min + i * scan.angle_increment

/-- Body of the extent loop of scanToOccGrid (lines 121-129) for beam `i` of range `r`. -/
def scanBoundsStep (L : Libm) (scan : LaserScan) (pose : Pose) (b : Bounds)
    (ir : Nat × ℚ) : Bounds :=
  let scan_angle := beamAngle scan pose ir.1
  { ymax := if b.ymax < pose.y + ir.2 * L.sin scan_angle
      then pose.y + ir.2 * L.sin scan_angle else b.ymax
    xmax := if b.xmax < pose.x + ir.2 * L.cos scan_angle
      then pose.x + ir.2 * L.cos scan_angle else b.xmax
    ymin := if b.ymin > pose.y + ir.2 * L.sin scan_angle
      then pose.y + ir.2 * L.sin scan_angle else b.ymin
    xmin := if b.xmin > pose.x + ir.2 * L.cos scan_angle
      then pose.x + ir.2 * L.cos scan_angle else b.xmin }

/-- Extent loop of scanToOccGrid (lines 114-130). -/
def scanBounds (L : Libm) (scan : LaserScan) (pose : Pose) : Bounds :=
  scan.ranges.enum.foldl (scanBoundsStep L scan pose) Bounds.init

/-- Bounds and size of the new grid (lines 132-140), the cell array still empty. -/
def gridFrame (L : Libm) (resolution : ℚ) (scan : LaserScan) (pose : Pose) : ScanGrid :=
  let b := scanBounds L scan pose
  let gymax := cround ((b.ymax - pose.y) / resolution)
  let gymin := cround ((pose.y - b.ymin) / resolution)
  let gxmax := cround ((b.xmax - pose.x) / resolution)
  let gxmin := cround ((pose.x - b.xmin) / resolution)
  { ymax := gymax, ymin := gymin, xmax := gxmax, xmin := gxmin
    height := gymax + gymin, width := gxmin + gxmax
    resolution := resolution, grid := [] }

/-- The pair `(col, row)` of lines 161-162 for a measurement: `col` is the index along y,
`row` the index along x. -/
def endpointCell (L : Libm) (resolution : ℚ) (scan : LaserScan) (pose : Pose)
    (G : ScanGrid) (i : Nat) (measurement : ℚ) : Option (Int × Int) :=
  let theta := beamAngle scan pose i
  let x := measurement * L.cos theta
  let y := measurement * L.sin theta
  match toInt32 (G.ymin + cround (y / resolution)),
        toInt32 (G.xmin + cround (x / resolution)) with
  | some col, some row => some (col, row)
  | _, _ => none

/-- Body of the endpoint loop (lines 153-164) for beam `i` of range `measurement`. -/
def markEndpoint (L : Libm) (resolution max_range : ℚ) (scan : LaserScan) (pose : Pose)
    (G : ScanGrid) (ir : Nat × ℚ) (grid : List Int) : Option (List Int) :=
  if ir.2 > max_range then some grid
  else
    match endpointCell L resolution scan pose G ir.1 ir.2 with
    | none => none
    | some (col, row) => store grid (col * G.width + row) 100

/-- Modelled from the spec: the type in which `i - new_grid.ymin` and `j - new_grid.xmin`
are evaluated depends on the declaration of `ScanGrid` in graph.h, which is missing; the
spec has the signed differences `r − grid.ymin`, `c − grid.xmin`. -/
def cellOffset (i : Nat) (m : Int) : ℚ := (i : ℚ) - (m : ℚ)

/-- Line 176, `scan_theta -= floor(scan_theta / PI / 2) * (PI * 2)`, in exact arithmetic:
the value before the roundings of the `double` operations. -/
def wrapAngle (scan_theta : ℚ) : ℚ :=
  scan_theta - (⌊scan_theta / PI / 2⌋ : ℚ) * (PI * 2)

/-- Value of `scan_theta` after line 176 for the cell of row `i`, column `j`. -/
def scanTheta (L : Libm) (scan : LaserScan) (pose : Pose) (G : ScanGrid) (i j : Nat) : ℚ :=
  wrapAngle (L.atan2 (cellOffset i G.ymin) (cellOffset j G.xmin) - pose.theta - scan.angle_min)

/-- Value of `scan_index` (line 178); none when `angle_increment` is zero or the
quotient is not an `int`. -/
def scanIndex (L : Libm) (scan : LaserScan) (pose : Pose) (G : ScanGrid) (i j : Nat) :
    Option Int :=
  if scan.angle_increment = 0 then none
  else toInt32 (cround (scanTheta L scan pose G i j / scan.angle_increment))

/-- Value of `scan_end` (lines 185-186) for a cell and the range of its beam. -/
def scanEnd (L : Libm) (resolution : ℚ) (G : ScanGrid) (i j : Nat) (range : ℚ) : ℚ :=
  let scan_dist := L.sqrt (cellOffset j G.xmin ^ 2 + cellOffset i G.ymin ^ 2)
  range - scan_dist * resolution

/-- What lines 175-192 assign to a cell that is not occupied. -/
def cellClass (L : Libm) (resolution : ℚ) (scan : LaserScan) (pose : Pose) (G : ScanGrid)
    (i j : Nat) : Option Int :=
  match scanIndex L scan pose G i j with
  | none => none
  | some scan_index =>
    if scan_index < 0 ∨ scan_index ≥ scan.ranges.length then some (-1)
    else
      match scan.ranges[scan_index.toNat]? with
      | none => none
      | some range => if scanEnd L resolution G i j range > 0 then some 0 else some (-1)

/-- Body of the triangulation loops (lines 171-192) for the cell of row `i`, column `j`. -/
def fillCell (L : Libm) (resolution : ℚ) (scan : LaserScan) (pose : Pose) (G : ScanGrid)
    (i j : Nat) (grid : List Int) : Option (List Int) :=
  let index : Int := i * G.width + j
  match load grid index with
  | none => none
  | some v =>
    if v = 100 then some grid
    else
      match cellClass L resolution scan pose G i j with
      | none => none
      | some c => store grid index c

/-- Triangulation pass (lines 169-194). -/
def triangulate (L : Libm) (resolution : ℚ) (scan : LaserScan) (pose : Pose) (G : ScanGrid)
    (grid : List Int) : Option (List Int) :=
  loopM (List.range G.height.toNat)
    (fun i g => loopM (List.range G.width.toNat)
      (fun j g1 => fillCell L resolution scan pose G i j g1) g) grid

/-- Endpoint pass (lines 148-165). -/
def markEndpoints (L : Libm) (resolution range_threshold : ℚ) (scan : LaserScan)
    (pose : Pose) (G : ScanGrid) (grid : List Int) : Option (List Int) :=
  loopM scan.ranges.enum
    (markEndpoint L resolution (scan.range_max * range_threshold) scan pose G) grid

/-- Function `Graph::scanToOccGrid`: the local grid of a scan taken at a pose. -/
def scanToOccGrid (L : Libm) (resolution range_threshold : ℚ) (scan : LaserScan)
    (pose : Pose) : Option ScanGrid :=
  if resolution = 0 then none
  else
    let G := gridFrame L resolution scan pose
    match toInt32 (G.height * G.width) with
    | none => none
    | some grid_size =>
      if grid_size < 0 then none
      else
        match markEndpoints L resolution range_threshold scan pose G
            (List.replicate grid_size.toNat (-1)) with
        | none => none
        | some grid1 =>
          match triangulate L resolution scan pose G grid1 with
          | none => none
          | some grid2 => some { G with grid := grid2 }

/-- Whether beam `ir.1`, of range `ir.2`, passes the range check of line 155 and has the cell
index `p` in line 164. -/
def beamHits (L : Libm) (resolution max_range : ℚ) (scan : LaserScan) (pose : Pose)
    (G : ScanGrid) (p : Nat) (ir : Nat × ℚ) : Bool :=
  if ir.2 > max_range then false
  else
    match endpointCell L resolution scan pose G ir.1 ir.2 with
    | none => false
    | some (col, row) => decide (col * G.width + row = (p : Int))

/-- What the triangulation pass leaves in a cell that held `v` before it: an occupied cell
is skipped, any other is classified. -/
def fillValue (L : Libm) (resolution : ℚ) (scan : LaserScan) (pose : Pose) (G : ScanGrid)
    (ij : Nat × Nat) (v : Int) : Option Int :=
  if v = 100 then some 100 else cellClass L resolution scan pose G ij.1 ij.2

/-! ## Graph::addNode -/

/-- Function `Graph::addNode`. -/
def addNode (L : Libm) (g : Graph) (pose : Pose) (scan : LaserScan) : Option Graph :=
  match scanToOccGrid L g.resolution g.range_threshold scan pose with
  | none => none
  | some sg =>
    let n : Node := { pose := pose, scan := scan, scan_grid := sg }
    some { g with
      node_list := g.node_list ++ [n]
      edge_list := g.edge_list ++ [{ parent := g.last_node, child := n }]
      last_node := n }

/-! ## Graph::generateMap -/

/-- Body of the extent loop of generateMap (lines 36-47). -/
def mapBoundsStep (resolution : ℚ) (b : Bounds) (node : Node) : Bounds :=
  { xmax := if b.xmax < (node.pose.x + node.scan_grid.xmax) * resolution
      then (node.pose.x + node.scan_grid.xmax) * resolution else b.xmax
    xmin := if b.xmin > (node.pose.x - node.scan_grid.xmin) * resolution
      then (node.pose.x - node.scan_grid.xmin) * resolution else b.xmin
    ymax := if b.ymax < (node.pose.y + node.scan_grid.ymax) * resolution
      then (node.pose.y + node.scan_grid.ymax) * resolution else b.ymax
    ymin := if b.ymin > (node.pose.y - node.scan_grid.ymin) * resolution
      then (node.pose.y - node.scan_grid.ymin) * resolution else b.ymin }

/-- Extent loop of generateMap (lines 33-48). -/
def mapBounds (resolution : ℚ) (node_list : List Node) : Bounds :=
  node_list.foldl (mapBoundsStep resolution) Bounds.init

/-- The `double` `map_width` of line 51. -/
def mapWidth (resolution : ℚ) (node_list : List Node) : ℚ :=
  ((mapBounds resolution node_list).xmax - (mapBounds resolution node_list).xmin) / resolution

/-- The `double` `map_height` of line 50. -/
def mapHeight (resolution : ℚ) (node_list : List Node) : ℚ :=
  ((mapBounds resolution node_list).ymax - (mapBounds resolution node_list).ymin) / resolution

/-- Modelled from the spec: `node->scanMap.left` and `node->scanMap.down` (lines 71-72)
name members that graph.h, which is missing, would declare; the spec has the node origin
`nx = round((pose.x − xmin)/resolution) − grid.xmin` and the same with `ymin` for `ny`.
The result is the pair `(node_x, node_y)`. -/
def nodeOrigin (resolution : ℚ) (b : Bounds) (node : Node) : Option (Int × Int) :=
  match toInt32 (cround ((node.pose.x - b.xmin) / resolution) - node.scan_grid.xmin),
        toInt32 (cround ((node.pose.y - b.ymin) / resolution) - node.scan_grid.ymin) with
  | some node_x, some node_y => some (node_x, node_y)
  | _, _ => none

/-- The `int` `global_index` of line 77; `node_y + j` is an `unsigned int` sum and the
rest of the expression is evaluated in `double`. -/
def globalIndex (map_width : ℚ) (node_x node_y : Int) (j k : Nat) : Option Int :=
  toInt32 ((((node_y + (j : Int)) % 4294967296 : Int) : ℚ) * map_width + node_x + k)

/-- The three counters `pos_seen`, `pos_free`, `pos_blocked`. -/
structure Counters where
  pos_seen : List Int
  pos_free : List Int
  pos_blocked : List Int
  deriving DecidableEq

/-- Body of the inner voting loop (lines 76-86) for the local cell `(j, k)`. -/
def voteCell (map_width : ℚ) (node : Node) (node_x node_y : Int) (j k : Nat)
    (c : Counters) : Option Counters :=
  match globalIndex map_width node_x node_y j k with
  | none => none
  | some global_index =>
    match bump c.pos_seen global_index with
    | none => none
    | some seen =>
      match load node.scan_grid.grid (j * node.scan_grid.width + k) with
      | none => none
      | some value =>
        match (if value = 100 then bump c.pos_blocked global_index
               else some c.pos_blocked) with
        | none => none
        | some blocked =>
          match (if value = 0 then bump c.pos_free global_index else some c.pos_free) with
          | none => none
          | some free => some { pos_seen := seen, pos_free := free, pos_blocked := blocked }

/-- Body of the outer voting loop (lines 70-89) for one node. -/
def voteNode (resolution : ℚ) (b : Bounds) (map_width : ℚ) (node : Node) (c : Counters) :
    Option Counters :=
  match nodeOrigin resolution b node with
  | none => none
  | some (node_x, node_y) =>
    loopM (List.range node.scan_grid.height.toNat)
      (fun j c1 => loopM (List.range node.scan_grid.width.toNat)
        (fun k c2 => voteCell map_width node node_x node_y j k c2) c1) c

/-- The value lines 94-104 give to a cell from its two counters. -/
def resolveCell (free blocked : Int) : Int :=
  if free > blocked then 0
  else if free < blocked then 100
  else if free = blocked then -1
  else -1

/-- Body of the resolve loop (lines 92-105). -/
def resolveStep (c : Counters) (i : Nat) (data : List Int) : Option (List Int) :=
  match load c.pos_free i, load c.pos_blocked i with
  | some free, some blocked => store data i (resolveCell free blocked)
  | _, _ => none

/-- Number of iterations of `for (unsigned int i = 0; i < map_size; i++)`, the counter
being compared as a `double`. -/
def resolveCount (map_size : ℚ) : Nat := ⌈map_size⌉.toNat

/-- Function `Graph::generateMap`: the graph with its `cur_map` rebuilt. -/
def generateMap (g : Graph) : Option Graph :=
  if g.resolution = 0 then none
  else
    let b := mapBounds g.resolution g.node_list
    let map_height := mapHeight g.resolution g.node_list
    let map_width := mapWidth g.resolution g.node_list
    let map_size := map_height * map_width
    match toUInt32 map_height, toUInt32 map_width, toSize map_size with
    | some height, some width, some size =>
      let zeros := List.replicate size (0 : Int)
      match loopM g.node_list (voteNode g.resolution b map_width)
          { pos_seen := zeros, pos_free := zeros, pos_blocked := zeros } with
      | none => none
      | some c =>
        match loopM (List.range (resolveCount map_size)) (resolveStep c)
            (resize g.cur_map.data size) with
        | none => none
        | some data =>
          some { g with
            cur_map := { height := height, width := width
                         resolution := g.resolution, data := data } }
    | _, _, _ => none

/-! ## Vote counts, stated over the placed cells -/

/-- Whether the local cell `(j, k)` of a node holds `value` and is placed on the global
cell `i`: 1 if so, 0 if not. -/
def placedVote (map_width : ℚ) (node : Node) (node_x node_y : Int) (value : Int) (i : Nat)
    (j k : Nat) : Int :=
  if globalIndex map_width node_x node_y j k = some (i : Int) ∧
      load node.scan_grid.grid (j * node.scan_grid.width + k) = some value then 1 else 0

/-- Number of local cells of one node that hold `value` and are placed on global cell `i`. -/
def nodeVotes (resolution : ℚ) (b : Bounds) (map_width : ℚ) (value : Int) (i : Nat)
    (node : Node) : Int :=
  match nodeOrigin resolution b node with
  | none => 0
  | some (node_x, node_y) =>
    ((List.range node.scan_grid.height.toNat).map (fun j =>
      ((List.range node.scan_grid.width.toNat).map
        (placedVote map_width node node_x node_y value i j)).sum)).sum

/-- Number of (node, local cell) pairs of the graph that hold `value` and are placed on
global cell `i`. -/
def votes (g : Graph) (value : Int) (i : Nat) : Int :=
  ((g.node_list).map (nodeVotes g.resolution (mapBounds g.resolution g.node_list)
    (mapWidth g.resolution g.node_list) value i)).sum

/-! ## A rational C library -/

/-- Integer square root by Newton steps from the guess `x`. -/
def isqrtAux : Nat → Nat → Nat → Nat
  | 0, _, x => x
  | fuel + 1, n, x =>
    if (x + n / x) / 2 < x then isqrtAux fuel n ((x + n / x) / 2) else x

/-- Integer square root. -/
def isqrt (n : Nat) : Nat := if n = 0 then 0 else isqrtAux 400 n n

/-- Square root to six decimals of the denominator; exact on squares of rationals. -/
def ratSqrt (q : ℚ) : ℚ :=
  if q ≤ 0 then 0
  else (isqrt (q.num.toNat * q.den * 1000000000000) : ℚ) / (q.den * 1000000)

/-- Bhaskara's approximation of the sine on `[0, PI]`; exact at `0`, `PI/2`, `PI`. -/
def bhaskara (x : ℚ) : ℚ :=
  16 * x * (PI - x) / (5 * PI ^ 2 - 4 * x * (PI - x))

/-- Sine: the argument reduced to `[0, 2 PI)`, then `bhaskara`. -/
def ratSin (x : ℚ) : ℚ :=
  let t := x - (⌊x / (2 * PI)⌋ : ℚ) * (2 * PI)
  if t ≤ PI then bhaskara t else -bhaskara (t - PI)

/-- Cosine, as the sine a quarter turn ahead. -/
def ratCos (x : ℚ) : ℚ := ratSin (x + PI / 2)

/-- Arc tangent on `[-1, 1]`, within 0.004; exact at `-1`, `0`, `1`. -/
def ratAtan (t : ℚ) : ℚ := t * (PI / 4 + 273 / 1000 * (1 - |t|))

/-- Function `atan2`, with `atan2(0, 0) = 0`. -/
def ratAtan2 (y x : ℚ) : ℚ :=
  if x = 0 ∧ y = 0 then 0
  else if |y| ≤ |x| then
    (if 0 < x then ratAtan (y / x)
     else if 0 ≤ y then ratAtan (y / x) + PI else ratAtan (y / x) - PI)
  else
    (if 0 < y then PI / 2 - ratAtan (x / y) else -(PI / 2) - ratAtan (x / y))

/-- A C library with rational values: exact on the axes (`cos`, `sin` at the multiples of
`PI / 2`, `atan2` of a point on an axis, `sqrt` of a square), close elsewhere. -/
def ratLibm : Libm :=
  { cos := ratCos, sin := ratSin, atan2 := ratAtan2, sqrt := ratSqrt }

/-! ## Example inputs -/

/-- A scan without beams. -/
def emptyScan : LaserScan :=
  { angle_min := 0, angle_increment := 0, range_max := 0, ranges := [] }

/-- A node at the pose `(x, y, 0)` holding a given local grid of one row, its pose cell
the first cell. -/
def rowNode (x y : ℚ) (cells : List Int) : Node :=
  { pose := { x := x, y := y, theta := 0 }
    scan := emptyScan
    scan_grid :=
      { ymax := 1, ymin := 0, xmax := cells.length, xmin := 0
        height := 1, width := cells.length, resolution := 1, grid := cells } }

/-- A graph over the given nodes, with an empty map. -/
def graphOf (resolution : ℚ) (nodes : List Node) : Graph :=
  { resolution := resolution, range_threshold := 1
    node_list := nodes, edge_list := []
    last_node := rowNode 0 0 []
    cur_map := { height := 0, width := 0, resolution := 0, data := [] } }

/-- Two nodes at the origin that disagree on their first cell, agree that the second is
free, and of which only one saw the third, as occupied. -/
def conflictGraph : Graph :=
  graphOf 1 [rowNode 0 0 [0, 0, 100], rowNode 0 0 [100, 0, -1]]

/-- A scan of two beams a quarter turn apart, of ranges 0.1 and 0.2, with
`range_max = 0.1`. -/
def cornerScan : LaserScan :=
  { angle_min := 0, angle_increment := PI / 2, range_max := 1 / 10, ranges := [1 / 10, 2 / 10] }

/-- The local grid that scanToOccGrid builds from `cornerScan` at resolution 0.1 and
threshold 1, at any pose of yaw 0: one column, two rows. -/
def cornerGrid : ScanGrid :=
  { ymax := 2, ymin := 0, xmax := 1, xmin := 0, height := 2, width := 1
    resolution := 1 / 10, grid := [0, 100] }

/-- The node that addNode builds from `cornerScan` at the pose `(1, 0, 0)`. -/
def offsetNode : Node :=
  { pose := { x := 1, y := 0, theta := 0 }, scan := cornerScan, scan_grid := cornerGrid }

/-- The node that addNode builds from `cornerScan` at the pose `(0, 0, 0)`. -/
def originNode : Node :=
  { pose := { x := 0, y := 0, theta := 0 }, scan := cornerScan, scan_grid := cornerGrid }

/-- Scan of scenario S1: four beams of range 1, a quarter turn apart. -/
def scanS1 : LaserScan :=
  { angle_min := 0, angle_increment := PI / 2, range_max := 10, ranges := [1, 1, 1, 1] }

/-- Scan of scenario S2: as S1 with the last three ranges 10. -/
def scanS2 : LaserScan :=
  { angle_min := 0, angle_increment := PI / 2, range_max := 10, ranges := [1, 10, 10, 10] }

/-- The pose `(0, 0, 0)`. -/
def pose0 : Pose := { x := 0, y := 0, theta := 0 }

/-- A scan of one beam of range 1 along the yaw of the pose, beyond `range_max = 0.5`. -/
def eastScan : LaserScan :=
  { angle_min := 0, angle_increment := 1 / 100, range_max := 1 / 2, ranges := [1] }

/-- A scan of one beam whose range equals `range_max = 1`. -/
def unitScan : LaserScan :=
  { angle_min := 0, angle_increment := 1 / 100, range_max := 1, ranges := [1] }

/-- A pose 20000 km from the origin on both axes, beyond the start values of the extent
loop. -/
def farPose : Pose := { x := -20000000, y := -20000000, theta := 0 }

/-- Four beams a quarter turn apart whose ranges all equal `range_max = 2`. -/
def squareScan : LaserScan :=
  { angle_min := 0, angle_increment := PI / 2, range_max := 2, ranges := [2, 2, 2, 2] }

/-- The grid of `squareScan` at the pose `(0, 0, 0)`, resolution 1 and threshold 0.5: four
rows of four cells, the pose cell at row 2, column 2. -/
def squareGrid : ScanGrid :=
  { ymax := 2, ymin := 2, xmax := 2, xmin := 2, height := 4, width := 4, resolution := 1
    grid := [-1, -1, -1, -1, -1, 0, 0, -1, -1, 0, 0, 0, -1, 0, 0, 0] }

/-- Three beams of range 3 at 45, 135 and 225 degrees. -/
def diagScan : LaserScan :=
  { angle_min := PI / 4, angle_increment := PI / 2, range_max := 3, ranges := [3, 3, 3] }

/-- The grid of `diagScan` at the pose `(0, 0, 0)`, resolution 1 and threshold 0.5: four rows of
four cells, the pose cell at row 2, column 2. -/
def diagGrid : ScanGrid :=
  { ymax := 2, ymin := 2, xmax := 2, xmin := 2, height := 4, width := 4, resolution := 1
    grid := [0, 0, -1, -1, 0, 0, -1, -1, 0, 0, -1, -1, 0, 0, 0, 0] }

/-! ## Further example inputs -/

/-- A default-constructed `Node`: zero pose, empty scan; the integer fields of its grid,
which C++ leaves indeterminate, are taken as 0. -/
def defaultNode : Node :=
  { pose := { x := 0, y := 0, theta := 0 }
    scan := emptyScan
    scan_grid :=
      { ymax := 0, ymin := 0, xmax := 0, xmin := 0, height := 0, width := 0
        resolution := 0, grid := [] } }

/-- Constructor `Graph::Graph(resolution, range_threshold)`: the two settings, no node and
no edge, `last_node` and `cur_map` default-constructed. -/
def newGraph (resolution range_threshold : ℚ) : Graph :=
  { resolution := resolution, range_threshold := range_threshold
    node_list := [], edge_list := []
    last_node := defaultNode
    cur_map := { height := 0, width := 0, resolution := 0, data := [] } }

/-- A run of addNode calls, one per observation `(pose, scan)`, in order. -/
def addNodes (L : Libm) (g : Graph) (observations : List (Pose × LaserScan)) : Option Graph :=
  loopM observations (fun o g1 => addNode L g1 o.1 o.2) g

/-- A scan of two beams a quarter turn apart, of ranges 1 and 2, with `range_max = 1`. -/
def stepScan : LaserScan :=
  { angle_min := 0, angle_increment := PI / 2, range_max := 1, ranges := [1, 2] }

/-- The local grid that scanToOccGrid builds from `stepScan` at resolution 1 and threshold 1,
at any pose of yaw 0: one column, two rows. -/
def stepGrid : ScanGrid :=
  { ymax := 2, ymin := 0, xmax := 1, xmin := 0, height := 2, width := 1
    resolution := 1, grid := [0, 100] }

/-- The node that addNode builds from `stepScan` at the pose `(0, 0, 0)`. -/
def stepNode : Node :=
  { pose := { x := 0, y := 0, theta := 0 }, scan := stepScan, scan_grid := stepGrid }

/-- The node that addNode builds from `stepScan` at the pose `(0.5, 0, 0)`. -/
def halfStepNode : Node :=
  { pose := { x := 1 / 2, y := 0, theta := 0 }, scan := stepScan, scan_grid := stepGrid }

/-- Two beams of ranges 1 and 3 near 45 degrees, both beyond `range_max = 0.5`. -/
def veilScan : LaserScan :=
  { angle_min := PI / 4, angle_increment := 1 / 100, range_max := 1 / 2, ranges := [1, 3] }

/-- The local grid that scanToOccGrid builds from `veilScan` at resolution 1 and threshold 1,
at any pose of yaw 0: a single cell, UNKNOWN. -/
def veilGrid : ScanGrid :=
  { ymax := 2, ymin := -1, xmax := 2, xmin := -1, height := 1, width := 1
    resolution := 1, grid := [-1] }

/-- The node that addNode builds from `veilScan` at the pose `(-1, 0, 0)`. -/
def veilNode : Node :=
  { pose := { x := -1, y := 0, theta := 0 }, scan := veilScan, scan_grid := veilGrid }

/-- Two beams of range 2, both beyond `range_max = 1`, with `angle_min = -3.5` and
`angle_increment = 1.5`. -/
def skewScan : LaserScan :=
  { angle_min := -7 / 2, angle_increment := 3 / 2, range_max := 1, ranges := [2, 2] }

/-- The pose at the origin with yaw -2.7831853075: a cell due east of it has the angle
`0 - pose_theta - angle_min = 6.2831853075` against the first beam of `skewScan`. -/
def skewPose : Pose := { x := 0, y := 0, theta := -27831853075 / 10000000000 }

/-- The local grid that scanToOccGrid builds from `skewScan` at `skewPose`, resolution 1 and
threshold 1: two rows of two cells, the row of the pose UNKNOWN, the row above it FREE. -/
def skewGrid : ScanGrid :=
  { ymax := 2, ymin := 0, xmax := 2, xmin := 0, height := 2, width := 2
    resolution := 1, grid := [-1, -1, 0, 0] }

/-! ## Loops -/

theorem loopM_append {α σ : Type} (xs ys : List α) (body : α → σ → Option σ) (s : σ) :
    loopM (xs ++ ys) body s = (loopM xs body s).bind (loopM ys body) := by
  induction xs generalizing s with
  | nil => simp [loopM]
  | cons x xs ih =>
    simp only [List.cons_append, loopM]
    cases hb : body x s with
    | none => simp
    | some s1 => simpa using ih s1

theorem loopM_invariant {α σ : Type} (P : σ → Prop) (body : α → σ → Option σ) (xs : List α)
    (hbody : ∀ x, x ∈ xs → ∀ s s1, P s → body x s = some s1 → P s1) :
    ∀ s s1, P s → loopM xs body s = some s1 → P s1 := by
  induction xs with
  | nil =>
    intro s s1 hP h
    simp only [loopM, Option.some.injEq] at h
    exact h ▸ hP
  | cons x xs ih =>
    intro s s1 hP h
    simp only [loopM] at h
    cases hb : body x s with
    | none => simp [hb] at h
    | some s2 =>
      simp only [hb] at h
      exact ih (fun y hy => hbody y (List.mem_cons_of_mem _ hy)) s2 s1
        (hbody x (List.mem_cons_self _ _) s s2 hP hb) h

theorem loopM_sum {α σ : Type} (m : σ → Int) (w : α → Int) (body : α → σ → Option σ)
    (hbody : ∀ x s s1, body x s = some s1 → m s1 = m s + w x) (xs : List α) :
    ∀ s s1, loopM xs body s = some s1 → m s1 = m s + (xs.map w).sum := by
  induction xs with
  | nil =>
    intro s s1 h
    simp only [loopM, Option.some.injEq] at h
    simp [h]
  | cons x xs ih =>
    intro s s1 h
    simp only [loopM] at h
    cases hb : body x s with
    | none => simp [hb] at h
    | some s2 =>
      simp only [hb] at h
      rw [ih s2 s1 h, hbody x s s2 hb, List.map_cons, List.sum_cons]
      ring

/-! ## Vectors -/

theorem store_eq_some {v v1 : List Int} {i x : Int} (h : store v i x = some v1) :
    0 ≤ i ∧ i < v.length ∧ v1 = v.set i.toNat x := by
  unfold store at h
  split at h
  · rename_i hc
    exact ⟨hc.1, hc.2, (Option.some.inj h).symm⟩
  · exact absurd h (by simp)

theorem store_length {v v1 : List Int} {i x : Int} (h : store v i x = some v1) :
    v1.length = v.length := by
  obtain ⟨_, _, rfl⟩ := store_eq_some h
  simp

theorem store_getElem? {v v1 : List Int} {i x : Int} (h : store v i x = some v1) (p : Nat) :
    v1[p]? = if (p : Int) = i then some x else v[p]? := by
  obtain ⟨h0, h1, rfl⟩ := store_eq_some h
  rw [List.getElem?_set]
  by_cases hp : (p : Int) = i
  · have : i.toNat = p := by omega
    have hlt : p < v.length := by omega
    simp [hp, this, hlt]
  · have : i.toNat ≠ p := by omega
    simp [hp, this]

theorem load_eq_some {v : List Int} {i c : Int} (h : load v i = some c) :
    0 ≤ i ∧ v[i.toNat]? = some c := by
  unfold load at h
  split at h
  · rename_i hc
    exact ⟨hc, h⟩
  · exact absurd h (by simp)

theorem load_natCast (v : List Int) (p : Nat) : load v (p : Int) = v[p]? := by
  simp [load]

theorem bump_eq_some {v v1 : List Int} {i : Int} (h : bump v i = some v1) :
    v1.length = v.length ∧
    ∀ p : Nat, (v1[p]?).getD 0 = (v[p]?).getD 0 + (if i = (p : Int) then 1 else 0) := by
  unfold bump at h
  cases hl : load v i with
  | none => simp [hl] at h
  | some c =>
    simp only [hl] at h
    split at h
    · exact absurd h (by simp)
    · obtain ⟨h0, hc⟩ := load_eq_some hl
      refine ⟨store_length h, fun p => ?_⟩
      rw [store_getElem? h p]
      by_cases hp : (p : Int) = i
      · have : i.toNat = p := by omega
        rw [this] at hc
        simp [hp, hc]
      · have : ¬ i = (p : Int) := fun e => hp e.symm
        simp [hp, this]

/-! ## Voting -/

theorem voteCell_eq_some {map_width : ℚ} {node : Node} {node_x node_y : Int} {j k : Nat}
    {c c1 : Counters} (h : voteCell map_width node node_x node_y j k c = some c1) :
    (c1.pos_free.length = c.pos_free.length ∧ c1.pos_blocked.length = c.pos_blocked.length) ∧
    ∀ p : Nat,
      (c1.pos_free[p]?).getD 0
        = (c.pos_free[p]?).getD 0 + placedVote map_width node node_x node_y 0 p j k ∧
      (c1.pos_blocked[p]?).getD 0
        = (c.pos_blocked[p]?).getD 0 + placedVote map_width node node_x node_y 100 p j k := by
  unfold voteCell at h
  cases hg : globalIndex map_width node_x node_y j k with
  | none => simp [hg] at h
  | some gi =>
    simp only [hg] at h
    cases hs : bump c.pos_seen gi with
    | none => simp [hs] at h
    | some seen =>
      simp only [hs] at h
      cases hv : load node.scan_grid.grid (j * node.scan_grid.width + k) with
      | none => simp [hv] at h
      | some value =>
        simp only [hv] at h
        cases hb : (if value = 100 then bump c.pos_blocked gi else some c.pos_blocked) with
        | none => simp [hb] at h
        | some blocked =>
          simp only [hb] at h
          cases hf : (if value = 0 then bump c.pos_free gi else some c.pos_free) with
          | none => simp [hf] at h
          | some free =>
            simp only [hf, Option.some.injEq] at h
            subst h
            simp only [placedVote, hg, hv, Option.some.injEq]
            by_cases h100 : value = 100
            · have h0 : ¬ value = 0 := by omega
              simp only [h100, if_true] at hb
              simp only [h0, if_false, Option.some.injEq] at hf
              subst hf
              obtain ⟨hl, hcnt⟩ := bump_eq_some hb
              refine ⟨⟨rfl, hl⟩, fun p => ⟨?_, ?_⟩⟩
              · simp [h100]
              · rw [hcnt p]
                by_cases e : gi = (p : Int) <;> simp [e, h100]
            · simp only [h100, if_false, Option.some.injEq] at hb
              subst hb
              by_cases h0 : value = 0
              · simp only [h0, if_true] at hf
                obtain ⟨hl, hcnt⟩ := bump_eq_some hf
                refine ⟨⟨hl, rfl⟩, fun p => ⟨?_, ?_⟩⟩
                · rw [hcnt p]
                  by_cases e : gi = (p : Int) <;> simp [e, h0]
                · simp [h0]
              · simp only [h0, if_false, Option.some.injEq] at hf
                subst hf
                refine ⟨⟨rfl, rfl⟩, fun p => ⟨?_, ?_⟩⟩
                · have : ¬ (0 : Int) = value := fun e => h0 e.symm
                  simp [h0, this]
                · have : ¬ (100 : Int) = value := fun e => h100 e.symm
                  simp [h100, this]

theorem voteNode_eq_some {resolution : ℚ} {b : Bounds} {map_width : ℚ} {node : Node}
    {c c1 : Counters} (h : voteNode resolution b map_width node c = some c1) :
    (c1.pos_free.length = c.pos_free.length ∧ c1.pos_blocked.length = c.pos_blocked.length) ∧
    ∀ p : Nat,
      (c1.pos_free[p]?).getD 0
        = (c.pos_free[p]?).getD 0 + nodeVotes resolution b map_width 0 p node ∧
      (c1.pos_blocked[p]?).getD 0
        = (c.pos_blocked[p]?).getD 0 + nodeVotes resolution b map_width 100 p node := by
  unfold voteNode at h
  unfold nodeVotes
  cases ho : nodeOrigin resolution b node with
  | none => simp [ho] at h
  | some o =>
    obtain ⟨node_x, node_y⟩ := o
    simp only [ho] at h
    refine ⟨?_, fun p => ⟨?_, ?_⟩⟩
    · refine loopM_invariant
        (fun s : Counters => s.pos_free.length = c.pos_free.length ∧
          s.pos_blocked.length = c.pos_blocked.length) _ _ ?_ c c1 ⟨rfl, rfl⟩ h
      intro j _ s s1 hs hj
      refine loopM_invariant
        (fun s : Counters => s.pos_free.length = c.pos_free.length ∧
          s.pos_blocked.length = c.pos_blocked.length) _ _ ?_ s s1 hs hj
      intro k _ t t1 ht hk
      have := (voteCell_eq_some hk).1
      exact ⟨this.1.trans ht.1, this.2.trans ht.2⟩
    · refine loopM_sum (fun s : Counters => (s.pos_free[p]?).getD 0) _ _ ?_ _ c c1 h
      intro j s s1 hj
      refine loopM_sum (fun s : Counters => (s.pos_free[p]?).getD 0) _ _ ?_ _ s s1 hj
      intro k t t1 hk
      exact ((voteCell_eq_some hk).2 p).1
    · refine loopM_sum (fun s : Counters => (s.pos_blocked[p]?).getD 0) _ _ ?_ _ c c1 h
      intro j s s1 hj
      refine loopM_sum (fun s : Counters => (s.pos_blocked[p]?).getD 0) _ _ ?_ _ s s1 hj
      intro k t t1 hk
      exact ((voteCell_eq_some hk).2 p).2

theorem voteLoop_eq_some {resolution : ℚ} {b : Bounds} {map_width : ℚ} (nodes : List Node)
    {c c1 : Counters} (h : loopM nodes (voteNode resolution b map_width) c = some c1) :
    (c1.pos_free.length = c.pos_free.length ∧ c1.pos_blocked.length = c.pos_blocked.length) ∧
    ∀ p : Nat,
      (c1.pos_free[p]?).getD 0
        = (c.pos_free[p]?).getD 0 + (nodes.map (nodeVotes resolution b map_width 0 p)).sum ∧
      (c1.pos_blocked[p]?).getD 0
        = (c.pos_blocked[p]?).getD 0
          + (nodes.map (nodeVotes resolution b map_width 100 p)).sum := by
  refine ⟨?_, fun p => ⟨?_, ?_⟩⟩
  · refine loopM_invariant
      (fun s : Counters => s.pos_free.length = c.pos_free.length ∧
        s.pos_blocked.length = c.pos_blocked.length) _ _ ?_ c c1 ⟨rfl, rfl⟩ h
    intro n _ s s1 hs hn
    have := (voteNode_eq_some hn).1
    exact ⟨this.1.trans hs.1, this.2.trans hs.2⟩
  · exact loopM_sum (fun s : Counters => (s.pos_free[p]?).getD 0)
      (nodeVotes resolution b map_width 0 p) (voteNode resolution b map_width)
      (fun n s s1 hn => ((voteNode_eq_some hn).2 p).1) nodes c c1 h
  · exact loopM_sum (fun s : Counters => (s.pos_blocked[p]?).getD 0)
      (nodeVotes resolution b map_width 100 p) (voteNode resolution b map_width)
      (fun n s s1 hn => ((voteNode_eq_some hn).2 p).2) nodes c c1 h

/-! ## Resolve loop -/

theorem resolveStep_eq_some {c : Counters} {i : Nat} {data data1 : List Int}
    (h : resolveStep c i data = some data1) :
    i < data.length ∧ data1.length = data.length ∧
    ∀ p : Nat, data1[p]? = if p = i
      then some (resolveCell ((c.pos_free[i]?).getD 0) ((c.pos_blocked[i]?).getD 0))
      else data[p]? := by
  unfold resolveStep at h
  cases hf : load c.pos_free i with
  | none => simp [hf] at h
  | some free =>
    cases hb : load c.pos_blocked i with
    | none => simp [hf, hb] at h
    | some blocked =>
      simp only [hf, hb] at h
      rw [load_natCast] at hf hb
      obtain ⟨_, hlt, _⟩ := store_eq_some h
      refine ⟨by exact_mod_cast hlt, store_length h, fun p => ?_⟩
      rw [store_getElem? h p, hf, hb]
      simp

theorem resolveLoop_eq_some (c : Counters) (n : Nat) :
    ∀ data data1 : List Int, loopM (List.range n) (resolveStep c) data = some data1 →
      n ≤ data.length ∧ data1.length = data.length ∧
      ∀ p : Nat, data1[p]? = if p < n
        then some (resolveCell ((c.pos_free[p]?).getD 0) ((c.pos_blocked[p]?).getD 0))
        else data[p]? := by
  induction n with
  | zero =>
    intro data data1 h
    simp only [List.range_zero, loopM, Option.some.injEq] at h
    subst h
    simp
  | succ n ih =>
    intro data data1 h
    rw [List.range_succ, loopM_append] at h
    cases hm : loopM (List.range n) (resolveStep c) data with
    | none => simp [hm] at h
    | some mid =>
      simp only [hm, Option.some_bind, loopM] at h
      cases hs : resolveStep c n mid with
      | none => simp [hs] at h
      | some fin =>
        simp only [hs, Option.some.injEq] at h
        subst h
        obtain ⟨h1, h2, h3⟩ := ih data mid hm
        obtain ⟨k1, k2, k3⟩ := resolveStep_eq_some hs
        refine ⟨by omega, by omega, fun p => ?_⟩
        rw [k3 p, h3 p]
        by_cases e : p = n
        · simp [e]
        · by_cases l : p < n
          · have : p < n + 1 := by omega
            simp [e, l, this]
          · have : ¬ p < n + 1 := by omega
            simp [e, l, this]

/-! ## generateMap -/

theorem resize_length (v : List Int) (n : Nat) : (resize v n).length = n := by
  simp only [resize, List.length_append, List.length_take, List.length_replicate]
  omega

theorem ctrunc_le_ceil (q : ℚ) : ctrunc q ≤ ⌈q⌉ := by
  unfold ctrunc
  split
  · exact Int.floor_le_ceil q
  · exact le_refl _

theorem toSize_eq_some {q : ℚ} {n : Nat} (h : toSize q = some n) :
    n = (ctrunc q).toNat ∧ n ≤ resolveCount q := by
  unfold toSize at h
  split at h
  · have e : n = (ctrunc q).toNat := (Option.some.inj h).symm
    refine ⟨e, ?_⟩
    rw [e]
    exact Int.toNat_le_toNat (ctrunc_le_ceil q)
  · exact absurd h (by simp)

/-- What a successful run of generateMap went through: the counters after the voting
loop and the data after the resolve loop. -/
theorem generateMap_eq_some {g g1 : Graph} (h : generateMap g = some g1) :
    ∃ (height width size : Nat) (c : Counters),
      g.resolution ≠ 0 ∧
      toUInt32 (mapHeight g.resolution g.node_list) = some height ∧
      toUInt32 (mapWidth g.resolution g.node_list) = some width ∧
      toSize (mapHeight g.resolution g.node_list * mapWidth g.resolution g.node_list)
        = some size ∧
      loopM g.node_list
        (voteNode g.resolution (mapBounds g.resolution g.node_list)
          (mapWidth g.resolution g.node_list))
        { pos_seen := List.replicate size 0, pos_free := List.replicate size 0
          pos_blocked := List.replicate size 0 } = some c ∧
      loopM (List.range (resolveCount
          (mapHeight g.resolution g.node_list * mapWidth g.resolution g.node_list)))
        (resolveStep c) (resize g.cur_map.data size) = some g1.cur_map.data ∧
      g1 = { g with cur_map := { height := height, width := width
                                 resolution := g.resolution, data := g1.cur_map.data } } := by
  unfold generateMap at h
  split at h
  · exact absurd h (by simp)
  · rename_i hres
    simp only at h
    split at h
    · rename_i height width size hh hw hs
      split at h
      · exact absurd h (by simp)
      · rename_i c hc
        split at h
        · exact absurd h (by simp)
        · rename_i data hd
          have e := Option.some.inj h
          subst e
          exact ⟨height, width, size, c, hres, hh, hw, hs, hc, hd, rfl⟩
    · exact absurd h (by simp)

theorem generateMap_data {g g1 : Graph} (h : generateMap g = some g1) (i : Nat)
    (hi : i < g1.cur_map.data.length) :
    g1.cur_map.data[i]? = some (resolveCell (votes g 0 i) (votes g 100 i)) := by
  obtain ⟨height, width, size, c, _, _, _, hs, hc, hd, _⟩ := generateMap_eq_some h
  obtain ⟨_, hle⟩ := toSize_eq_some hs
  obtain ⟨_, hlen, hval⟩ := resolveLoop_eq_some c _ _ _ hd
  obtain ⟨_, hcnt⟩ := voteLoop_eq_some g.node_list hc
  rw [resize_length] at hlen
  have hlt : i < resolveCount
      (mapHeight g.resolution g.node_list * mapWidth g.resolution g.node_list) := by omega
  rw [hval i, if_pos hlt, (hcnt i).1, (hcnt i).2]
  have hz : ((List.replicate size (0 : Int))[i]?).getD 0 = 0 := by
    rw [List.getElem?_replicate]
    split <;> rfl
  simp only [hz, zero_add]
  rfl

theorem resolveCell_cases (f b : Int) :
    (resolveCell f b = 0 ↔ f > b) ∧ (resolveCell f b = 100 ↔ f < b) ∧
    (resolveCell f b = -1 ↔ f = b) := by
  unfold resolveCell
  rcases lt_trichotomy f b with h | h | h
  · have h1 : ¬ f > b := by omega
    have h2 : ¬ f = b := by omega
    simp [h, h1, h2]
  · subst h
    simp
  · have h1 : ¬ f < b := by omega
    have h2 : ¬ f = b := by omega
    simp [h, h1, h2]

/-- C1: every cell of the map generateMap produces is resolved from the votes placed on
it: it is 0 (FREE) exactly when more placed local cells hold 0 than hold 100, 100 (BLOCKED)
exactly when fewer do, and -1 (UNKNOWN) exactly when the two counts are equal (zero or
not); so every cell is one of -1, 0, 100. -/
theorem generateMap_resolve_rule (g g1 : Graph) (h : generateMap g = some g1) (i : Nat)
    (hi : i < g1.cur_map.data.length) :
    (g1.cur_map.data[i]? = some 0 ↔ votes g 0 i > votes g 100 i) ∧
    (g1.cur_map.data[i]? = some 100 ↔ votes g 0 i < votes g 100 i) ∧
    (g1.cur_map.data[i]? = some (-1) ↔ votes g 0 i = votes g 100 i) ∧
    (g1.cur_map.data[i]? = some (-1) ∨ g1.cur_map.data[i]? = some 0 ∨
      g1.cur_map.data[i]? = some 100) := by
  rw [generateMap_data h i hi]
  obtain ⟨h0, h100, hu⟩ := resolveCell_cases (votes g 0 i) (votes g 100 i)
  simp only [Option.some.injEq]
  refine ⟨h0, h100, hu, ?_⟩
  rcases lt_trichotomy (votes g 0 i) (votes g 100 i) with l | l | l
  · exact Or.inr (Or.inr (h100.mpr l))
  · exact Or.inl (hu.mpr l)
  · exact Or.inr (Or.inl (h0.mpr l))

/-- The map of `conflictGraph` is `[-1, 0, 100]`: a tie of one FREE and one BLOCKED vote, two
FREE votes, and a single BLOCKED vote. -/
theorem generateMap_resolve_rule_witness :
    generateMap conflictGraph = some { conflictGraph with
      cur_map := { height := 1, width := 3, resolution := 1, data := [-1, 0, 100] } } ∧
    votes conflictGraph 0 0 = 1 ∧ votes conflictGraph 100 0 = 1 ∧
    votes conflictGraph 0 1 = 2 ∧ votes conflictGraph 100 1 = 0 ∧
    votes conflictGraph 0 2 = 0 ∧ votes conflictGraph 100 2 = 1 ∧
    (([-1, 0, 100] : List Int)[0]? = some (-1)
      ↔ votes conflictGraph 0 0 = votes conflictGraph 100 0) :=
  ⟨by decide!, by decide!, by decide!, by decide!, by decide!, by decide!, by decide!,
    (generateMap_resolve_rule conflictGraph
      { conflictGraph with
        cur_map := { height := 1, width := 3, resolution := 1, data := [-1, 0, 100] } }
      (by decide!) 0 (by decide!)).2.2.1⟩

/-- C2: at resolution 0.1, the node built from `cornerScan` at the pose `(1, 0, 0)` makes
generateMap compute a map of 1 x 2 cells and the node origin `(9, 0)`, so the global index of
its local cell `(0, 0)` is 9, outside the two cells of the map, and no map is produced. -/
theorem generateMap_index_outside_map :
    (addNode ratLibm (graphOf (1 / 10) []) offsetNode.pose cornerScan).map Graph.node_list
      = some [offsetNode] ∧
    mapWidth (1 / 10) [offsetNode] = 1 ∧ mapHeight (1 / 10) [offsetNode] = 2 ∧
    nodeOrigin (1 / 10) (mapBounds (1 / 10) [offsetNode]) offsetNode = some (9, 0) ∧
    globalIndex 1 9 0 0 0 = some 9 ∧
    generateMap (graphOf (1 / 10) [offsetNode]) = none := by
  refine ⟨?_, ?_, ?_, ?_, ?_, ?_⟩ <;> decide!

/-- C3: two nodes with the same pose and the same scan (`cornerScan`, resolution 0.1).  At the
pose `(0, 0, 0)` the generated map is the local grid; at the pose `(1, 0, 0)` the same local
grid is built but generateMap produces no map. -/
theorem generateMap_same_pose_twice :
    scanToOccGrid ratLibm (1 / 10) 1 cornerScan pose0 = some cornerGrid ∧
    generateMap (graphOf (1 / 10) [originNode, originNode])
      = some { graphOf (1 / 10) [originNode, originNode] with
          cur_map := { height := 2, width := 1, resolution := 1 / 10, data := [0, 100] } } ∧
    scanToOccGrid ratLibm (1 / 10) 1 cornerScan offsetNode.pose = some cornerGrid ∧
    generateMap (graphOf (1 / 10) [offsetNode, offsetNode]) = none := by
  refine ⟨?_, ?_, ?_, ?_⟩ <;> decide!

/-! ## Loops that write one slot per step -/

theorem loopM_map {α β σ : Type} (f : α → β) (body : β → σ → Option σ) (xs : List α) (s : σ) :
    loopM (xs.map f) body s = loopM xs (fun x t => body (f x) t) s := by
  induction xs generalizing s with
  | nil => rfl
  | cons x xs ih =>
    simp only [List.map_cons, loopM]
    cases body (f x) s with
    | none => rfl
    | some s1 => exact ih s1

/-- Every cell `(i, j)` with `i < h` and `j < w`, row by row. -/
theorem loopM_nested {σ : Type} (h w : Nat) (body : Nat → Nat → σ → Option σ) (s : σ) :
    loopM (List.range h) (fun i t => loopM (List.range w) (fun j t1 => body i j t1) t) s
      = loopM ((List.range h).flatMap (fun i => (List.range w).map (fun j => (i, j))))
          (fun ij t => body ij.1 ij.2 t) s := by
  generalize List.range h = rows
  induction rows generalizing s with
  | nil => rfl
  | cons i rows ih =>
    simp only [List.flatMap_cons, loopM_append, loopM, loopM_map]
    cases loopM (List.range w) (fun j t1 => body i j t1) s with
    | none => rfl
    | some s1 => simpa using ih s1

theorem loopM_slots {α : Type} (body : α → List Int → Option (List Int)) (slot : α → Nat)
    (upd : α → Int → Option Int) (xs : List α)
    (hbody : ∀ x, x ∈ xs → ∀ g g1, body x g = some g1 →
      g1.length = g.length ∧ ∃ v r, g[slot x]? = some v ∧ upd x v = some r ∧
        ∀ p : Nat, g1[p]? = if p = slot x then some r else g[p]?)
    (hnd : (xs.map slot).Nodup) :
    ∀ g g1, loopM xs body g = some g1 →
      g1.length = g.length ∧
      (∀ x, x ∈ xs → ∃ v r, g[slot x]? = some v ∧ upd x v = some r ∧ g1[slot x]? = some r) ∧
      (∀ p : Nat, p ∉ xs.map slot → g1[p]? = g[p]?) := by
  induction xs with
  | nil =>
    intro g g1 h
    simp only [loopM, Option.some.injEq] at h
    subst h
    simp
  | cons x xs ih =>
    intro g g1 h
    simp only [loopM] at h
    cases hb : body x g with
    | none => simp [hb] at h
    | some g2 =>
      simp only [hb] at h
      rw [List.map_cons, List.nodup_cons] at hnd
      obtain ⟨hlen2, v, r, hv, hr, hset⟩ := hbody x (List.mem_cons_self _ _) g g2 hb
      obtain ⟨hlen1, hin, hout⟩ :=
        ih (fun y hy => hbody y (List.mem_cons_of_mem _ hy)) hnd.2 g2 g1 h
      refine ⟨hlen1.trans hlen2, ?_, ?_⟩
      · intro y hy
        rcases List.mem_cons.mp hy with e | hy1
        · subst e
          refine ⟨v, r, hv, hr, ?_⟩
          rw [hout _ hnd.1, hset]
          simp
        · obtain ⟨v1, r1, hv1, hr1, hfin⟩ := hin y hy1
          refine ⟨v1, r1, ?_, hr1, hfin⟩
          have hne : slot y ≠ slot x := by
            intro e
            exact hnd.1 (e ▸ List.mem_map_of_mem slot hy1)
          rw [← hv1, hset]
          simp [hne]
      · intro p hp
        rw [List.map_cons, List.mem_cons, not_or] at hp
        rw [hout p hp.2, hset]
        simp [hp.1]

theorem cells_slots (h w : Nat) :
    ((List.range h).flatMap (fun i => (List.range w).map (fun j => (i, j)))).map
      (fun ij : Nat × Nat => ij.1 * w + ij.2) = List.range (h * w) := by
  induction h with
  | zero => simp
  | succ h ih =>
    rw [List.range_succ, List.flatMap_append, List.map_append, ih, Nat.succ_mul, List.range_add]
    simp [Function.comp_def]

theorem mem_cells {h w : Nat} {ij : Nat × Nat} :
    ij ∈ (List.range h).flatMap (fun i => (List.range w).map (fun j => (i, j)))
      ↔ ij.1 < h ∧ ij.2 < w := by
  obtain ⟨i, j⟩ := ij
  simp only [List.mem_flatMap, List.mem_range, List.mem_map, Prod.mk.injEq]
  constructor
  · rintro ⟨a, ha, b, hb, rfl, rfl⟩
    exact ⟨ha, hb⟩
  · rintro ⟨hi, hj⟩
    exact ⟨i, hi, j, hj, rfl, rfl⟩

/-! ## scanToOccGrid: the shape and the values of the grid -/

theorem ctrunc_intCast (n : Int) : ctrunc (n : ℚ) = n := by
  unfold ctrunc
  split
  · exact Int.floor_intCast n
  · exact Int.ceil_intCast n

theorem toInt32_intCast {n m : Int} (h : toInt32 (n : ℚ) = some m) : m = n := by
  unfold toInt32 at h
  rw [ctrunc_intCast] at h
  split at h
  · exact (Option.some.inj h).symm
  · exact absurd h (by simp)

/-- What a successful run of scanToOccGrid went through: a grid of `height * width` cells
set to -1, the endpoint pass, then the triangulation pass. -/
theorem scanToOccGrid_eq_some {L : Libm} {resolution range_threshold : ℚ} {scan : LaserScan}
    {pose : Pose} {g : ScanGrid}
    (h : scanToOccGrid L resolution range_threshold scan pose = some g) :
    resolution ≠ 0 ∧
    0 ≤ (gridFrame L resolution scan pose).height * (gridFrame L resolution scan pose).width ∧
    ∃ grid1 : List Int,
      markEndpoints L resolution range_threshold scan pose (gridFrame L resolution scan pose)
        (List.replicate ((gridFrame L resolution scan pose).height *
          (gridFrame L resolution scan pose).width).toNat (-1)) = some grid1 ∧
      triangulate L resolution scan pose (gridFrame L resolution scan pose) grid1
        = some g.grid ∧
      g = { gridFrame L resolution scan pose with grid := g.grid } := by
  unfold scanToOccGrid at h
  split at h
  · exact absurd h (by simp)
  · rename_i hres
    simp only at h
    split at h
    · exact absurd h (by simp)
    · rename_i grid_size hsize
      split at h
      · exact absurd h (by simp)
      · rename_i hneg
        split at h
        · exact absurd h (by simp)
        · rename_i grid1 h1
          split at h
          · exact absurd h (by simp)
          · rename_i grid2 h2
            have e := Option.some.inj h
            subst e
            have hs : grid_size = (gridFrame L resolution scan pose).height *
                (gridFrame L resolution scan pose).width := by
              apply toInt32_intCast
              rw [← hsize]
              push_cast
              rfl
            subst hs
            exact ⟨hres, by omega, grid1, h1, h2, rfl⟩

theorem markEndpoint_eq_some {L : Libm} {resolution max_range : ℚ} {scan : LaserScan}
    {pose : Pose} {G : ScanGrid} {ir : Nat × ℚ} {grid grid1 : List Int}
    (h : markEndpoint L resolution max_range scan pose G ir grid = some grid1) :
    (ir.2 > max_range ∧ grid1 = grid) ∨
    (¬ ir.2 > max_range ∧ ∃ col row : Int,
      endpointCell L resolution scan pose G ir.1 ir.2 = some (col, row) ∧
      store grid (col * G.width + row) 100 = some grid1) := by
  unfold markEndpoint at h
  split at h
  · rename_i hgt
    exact Or.inl ⟨hgt, (Option.some.inj h).symm⟩
  · rename_i hgt
    split at h
    · exact absurd h (by simp)
    · rename_i col row hc
      exact Or.inr ⟨hgt, col, row, hc, h⟩

theorem cellClass_values {L : Libm} {resolution : ℚ} {scan : LaserScan} {pose : Pose}
    {G : ScanGrid} {i j : Nat} {c : Int}
    (h : cellClass L resolution scan pose G i j = some c) : c = -1 ∨ c = 0 := by
  unfold cellClass at h
  split at h
  · exact absurd h (by simp)
  · split at h
    · exact Or.inl (Option.some.inj h).symm
    · split at h
      · exact absurd h (by simp)
      · split at h
        · exact Or.inr (Option.some.inj h).symm
        · exact Or.inl (Option.some.inj h).symm

theorem fillCell_cases {L : Libm} {resolution : ℚ} {scan : LaserScan} {pose : Pose}
    {G : ScanGrid} {i j : Nat} {grid grid1 : List Int}
    (h : fillCell L resolution scan pose G i j grid = some grid1) :
    (load grid (i * G.width + j) = some 100 ∧ grid1 = grid) ∨
    (∃ v c : Int, load grid (i * G.width + j) = some v ∧ v ≠ 100 ∧
      cellClass L resolution scan pose G i j = some c ∧
      store grid (i * G.width + j) c = some grid1) := by
  unfold fillCell at h
  simp only at h
  split at h
  · exact absurd h (by simp)
  · rename_i v hv
    split at h
    · rename_i h100
      subst h100
      exact Or.inl ⟨hv, (Option.some.inj h).symm⟩
    · rename_i h100
      split at h
      · exact absurd h (by simp)
      · rename_i c hc
        exact Or.inr ⟨v, c, hv, h100, hc, h⟩

/-- A grid of the given length whose cells are all -1, 0 or 100. -/
theorem store_cells {n : Nat} {grid grid1 : List Int} {i x : Int}
    (hx : x = -1 ∨ x = 0 ∨ x = 100)
    (hg : grid.length = n ∧ ∀ v ∈ grid, v = -1 ∨ v = 0 ∨ v = 100)
    (h : store grid i x = some grid1) :
    grid1.length = n ∧ ∀ v ∈ grid1, v = -1 ∨ v = 0 ∨ v = 100 := by
  refine ⟨(store_length h).trans hg.1, fun v hv => ?_⟩
  obtain ⟨_, _, rfl⟩ := store_eq_some h
  rcases List.mem_or_eq_of_mem_set hv with hm | he
  · exact hg.2 v hm
  · exact he ▸ hx

theorem markEndpoints_cells {L : Libm} {resolution range_threshold : ℚ} {scan : LaserScan}
    {pose : Pose} {G : ScanGrid} {n : Nat} {grid grid1 : List Int}
    (hg : grid.length = n ∧ ∀ v ∈ grid, v = -1 ∨ v = 0 ∨ v = 100)
    (h : markEndpoints L resolution range_threshold scan pose G grid = some grid1) :
    grid1.length = n ∧ ∀ v ∈ grid1, v = -1 ∨ v = 0 ∨ v = 100 := by
  refine loopM_invariant
    (fun s : List Int => s.length = n ∧ ∀ v ∈ s, v = -1 ∨ v = 0 ∨ v = 100) _ _ ?_ grid grid1 hg h
  intro ir _ s s1 hs hb
  rcases markEndpoint_eq_some hb with ⟨_, e⟩ | ⟨_, col, row, _, hst⟩
  · exact e ▸ hs
  · exact store_cells (Or.inr (Or.inr rfl)) hs hst

theorem triangulate_cells {L : Libm} {resolution : ℚ} {scan : LaserScan}
    {pose : Pose} {G : ScanGrid} {n : Nat} {grid grid1 : List Int}
    (hg : grid.length = n ∧ ∀ v ∈ grid, v = -1 ∨ v = 0 ∨ v = 100)
    (h : triangulate L resolution scan pose G grid = some grid1) :
    grid1.length = n ∧ ∀ v ∈ grid1, v = -1 ∨ v = 0 ∨ v = 100 := by
  refine loopM_invariant
    (fun s : List Int => s.length = n ∧ ∀ v ∈ s, v = -1 ∨ v = 0 ∨ v = 100) _ _ ?_ grid grid1 hg h
  intro i _ s s1 hs hi
  refine loopM_invariant
    (fun s : List Int => s.length = n ∧ ∀ v ∈ s, v = -1 ∨ v = 0 ∨ v = 100) _ _ ?_ s s1 hs hi
  intro j _ t t1 ht hj
  rcases fillCell_cases hj with ⟨_, e⟩ | ⟨v, c, _, _, hc, hst⟩
  · exact e ▸ ht
  · refine store_cells ?_ ht hst
    rcases cellClass_values hc with e | e
    · exact Or.inl e
    · exact Or.inr (Or.inl e)

/-- C4: every ScanGrid that scanToOccGrid produces has `width = xmin + xmax`,
`height = ymin + ymax`, a cell array of exactly `width * height` cells, and every cell is
-1, 0 or 100. -/
theorem scanToOccGrid_shape (L : Libm) (resolution range_threshold : ℚ) (scan : LaserScan)
    (pose : Pose) (g : ScanGrid)
    (h : scanToOccGrid L resolution range_threshold scan pose = some g) :
    g.width = g.xmin + g.xmax ∧ g.height = g.ymin + g.ymax ∧
    (g.grid.length : Int) = g.width * g.height ∧
    ∀ v ∈ g.grid, v = -1 ∨ v = 0 ∨ v = 100 := by
  obtain ⟨_, hsize, grid1, h1, h2, hg⟩ := scanToOccGrid_eq_some h
  have hrep : (List.replicate ((gridFrame L resolution scan pose).height *
        (gridFrame L resolution scan pose).width).toNat (-1 : Int)).length
        = ((gridFrame L resolution scan pose).height *
          (gridFrame L resolution scan pose).width).toNat ∧
      ∀ v ∈ List.replicate ((gridFrame L resolution scan pose).height *
        (gridFrame L resolution scan pose).width).toNat (-1 : Int),
        v = -1 ∨ v = 0 ∨ v = 100 :=
    ⟨List.length_replicate _ _, fun v hv => Or.inl (List.eq_of_mem_replicate hv)⟩
  obtain ⟨hlen, hval⟩ := triangulate_cells (markEndpoints_cells hrep h1) h2
  rw [hg]
  refine ⟨rfl, ?_, ?_, hval⟩
  · show (gridFrame L resolution scan pose).height
      = (gridFrame L resolution scan pose).ymin + (gridFrame L resolution scan pose).ymax
    simp only [gridFrame]
    ring
  · show (g.grid.length : Int) = (gridFrame L resolution scan pose).width
      * (gridFrame L resolution scan pose).height
    rw [hlen, Int.toNat_of_nonneg hsize]
    ring

/-- The grid of `cornerScan` at resolution 0.1: one column and two rows, cells `[0, 100]`. -/
theorem scanToOccGrid_shape_witness :
    scanToOccGrid ratLibm (1 / 10) 1 cornerScan offsetNode.pose = some cornerGrid ∧
    cornerGrid.width = cornerGrid.xmin + cornerGrid.xmax ∧
    cornerGrid.height = cornerGrid.ymin + cornerGrid.ymax ∧
    (cornerGrid.grid.length : Int) = cornerGrid.width * cornerGrid.height ∧
    ∀ v ∈ cornerGrid.grid, v = -1 ∨ v = 0 ∨ v = 100 :=
  ⟨by decide!,
    scanToOccGrid_shape ratLibm (1 / 10) 1 cornerScan offsetNode.pose cornerGrid (by decide!)⟩

/-! ## scanToOccGrid: the two passes, cell by cell -/

theorem markLoop_eq_some {L : Libm} {resolution max_range : ℚ} {scan : LaserScan}
    {pose : Pose} {G : ScanGrid} (xs : List (Nat × ℚ)) :
    ∀ grid grid1 : List Int,
      loopM xs (markEndpoint L resolution max_range scan pose G) grid = some grid1 →
      grid1.length = grid.length ∧
      ∀ p : Nat, grid1[p]? =
        if xs.any (beamHits L resolution max_range scan pose G p) = true then some 100
        else grid[p]? := by
  induction xs with
  | nil =>
    intro grid grid1 h
    simp only [loopM, Option.some.injEq] at h
    subst h
    simp
  | cons x xs ih =>
    intro grid grid1 h
    simp only [loopM] at h
    cases hb : markEndpoint L resolution max_range scan pose G x grid with
    | none => simp [hb] at h
    | some g2 =>
      simp only [hb] at h
      obtain ⟨hlen, hval⟩ := ih g2 grid1 h
      rcases markEndpoint_eq_some hb with ⟨hgt, e⟩ | ⟨hgt, col, row, hc, hst⟩
      · subst e
        refine ⟨hlen, fun p => ?_⟩
        rw [hval p]
        have hx : beamHits L resolution max_range scan pose G p x = false := by
          unfold beamHits
          rw [if_pos hgt]
        simp only [List.any_cons, hx, Bool.false_or]
      · refine ⟨hlen.trans (store_length hst), fun p => ?_⟩
        rw [hval p, store_getElem? hst p]
        have hx : beamHits L resolution max_range scan pose G p x
            = decide (col * G.width + row = (p : Int)) := by
          unfold beamHits
          rw [if_neg hgt, hc]
        simp only [List.any_cons, hx, Bool.or_eq_true, decide_eq_true_eq]
        by_cases hp : col * G.width + row = (p : Int)
        · rw [if_pos (Or.inl hp), if_pos hp.symm]
          simp
        · have hp1 : ¬ (p : Int) = col * G.width + row := fun e => hp e.symm
          rw [if_neg hp1]
          by_cases hany : xs.any (beamHits L resolution max_range scan pose G p) = true
          · rw [if_pos hany, if_pos (Or.inr hany)]
          · rw [if_neg hany, if_neg (by tauto)]

theorem fillCell_slot {L : Libm} {resolution : ℚ} {scan : LaserScan} {pose : Pose}
    {G : ScanGrid} {i j : Nat} {grid grid1 : List Int} (hj : j < G.width.toNat)
    (h : fillCell L resolution scan pose G i j grid = some grid1) :
    grid1.length = grid.length ∧
    ∃ v r : Int, grid[i * G.width.toNat + j]? = some v ∧
      fillValue L resolution scan pose G (i, j) v = some r ∧
      ∀ p : Nat, grid1[p]? = if p = i * G.width.toNat + j then some r else grid[p]? := by
  have hw : G.width = (G.width.toNat : Int) := by omega
  have hidx : (i : Int) * G.width + j = ((i * G.width.toNat + j : Nat) : Int) := by
    rw [hw]
    push_cast
    simp
  rcases fillCell_cases h with ⟨hl, e⟩ | ⟨v, c, hl, hv, hc, hst⟩
  · subst e
    rw [hidx, load_natCast] at hl
    refine ⟨rfl, 100, 100, hl, by simp [fillValue], fun p => ?_⟩
    by_cases hp : p = i * G.width.toNat + j
    · simp [hp, hl]
    · simp [hp]
  · rw [hidx, load_natCast] at hl
    rw [hidx] at hst
    refine ⟨store_length hst, v, c, hl, by simp [fillValue, hv, hc], fun p => ?_⟩
    rw [store_getElem? hst p]
    by_cases hp : p = i * G.width.toNat + j
    · simp [hp]
    · have : ¬ (p : Int) = ((i * G.width.toNat + j : Nat) : Int) := by
        intro e
        exact hp (by exact_mod_cast e)
      rw [if_neg this, if_neg hp]

theorem triangulate_eq_some {L : Libm} {resolution : ℚ} {scan : LaserScan} {pose : Pose}
    {G : ScanGrid} {grid grid1 : List Int}
    (h : triangulate L resolution scan pose G grid = some grid1) :
    grid1.length = grid.length ∧
    (∀ i j : Nat, i < G.height.toNat → j < G.width.toNat →
      ∃ v r : Int, grid[i * G.width.toNat + j]? = some v ∧
        fillValue L resolution scan pose G (i, j) v = some r ∧
        grid1[i * G.width.toNat + j]? = some r) ∧
    (∀ p : Nat, G.height.toNat * G.width.toNat ≤ p → grid1[p]? = grid[p]?) := by
  unfold triangulate at h
  rw [loopM_nested G.height.toNat G.width.toNat
    (fun i j g => fillCell L resolution scan pose G i j g) grid] at h
  have hnd : (((List.range G.height.toNat).flatMap
      (fun i => (List.range G.width.toNat).map (fun j => (i, j)))).map
      (fun ij : Nat × Nat => ij.1 * G.width.toNat + ij.2)).Nodup := by
    rw [cells_slots]
    exact List.nodup_range _
  obtain ⟨hlen, hin, hout⟩ := loopM_slots
    (fun (ij : Nat × Nat) g => fillCell L resolution scan pose G ij.1 ij.2 g)
    (fun ij : Nat × Nat => ij.1 * G.width.toNat + ij.2)
    (fillValue L resolution scan pose G) _
    (fun x hx g g1 hb => fillCell_slot (mem_cells.mp hx).2 hb) hnd grid grid1 h
  refine ⟨hlen, fun i j hi hj => hin (i, j) (mem_cells.mpr ⟨hi, hj⟩), fun p hp => ?_⟩
  apply hout
  rw [cells_slots, List.mem_range]
  omega

theorem fillValue_blocked {L : Libm} {resolution : ℚ} {scan : LaserScan} {pose : Pose}
    {G : ScanGrid} {ij : Nat × Nat} {v : Int}
    (h : fillValue L resolution scan pose G ij v = some 100) : v = 100 := by
  unfold fillValue at h
  split at h
  · assumption
  · rcases cellClass_values h with e | e <;> omega

/-- Every index below `h * w` is the slot of one cell. -/
theorem slot_of_lt {h w p : Nat} (hp : p < h * w) :
    ∃ i j : Nat, i < h ∧ j < w ∧ p = i * w + j := by
  have hw : 0 < w := by
    rcases Nat.eq_zero_or_pos w with e | e
    · subst e
      simp at hp
    · exact e
  refine ⟨p / w, p % w, ?_, Nat.mod_lt _ hw, ?_⟩
  · exact Nat.div_lt_of_lt_mul (by rwa [Nat.mul_comm] at hp)
  · rw [Nat.mul_comm]
    exact (Nat.div_add_mod p w).symm

/-- The occupied cells of a produced grid are exactly the cell indices that line 164
computes for the beams that pass the range check. -/
theorem scanToOccGrid_blocked_iff {L : Libm} {resolution range_threshold : ℚ}
    {scan : LaserScan} {pose : Pose} {g : ScanGrid}
    (h : scanToOccGrid L resolution range_threshold scan pose = some g) (p : Nat) :
    g.grid[p]? = some 100 ↔
      scan.ranges.enum.any (beamHits L resolution (scan.range_max * range_threshold) scan pose
        (gridFrame L resolution scan pose) p) = true := by
  obtain ⟨_, _, grid1, h1, h2, _⟩ := scanToOccGrid_eq_some h
  obtain ⟨_, hmark⟩ := markLoop_eq_some _ _ _ h1
  obtain ⟨_, hin, hout⟩ := triangulate_eq_some h2
  have key : g.grid[p]? = some 100 ↔ grid1[p]? = some 100 := by
    by_cases hp : p < (gridFrame L resolution scan pose).height.toNat *
        (gridFrame L resolution scan pose).width.toNat
    · obtain ⟨i, j, hi, hj, rfl⟩ := slot_of_lt hp
      obtain ⟨v, r, hv, hr, hfin⟩ := hin i j hi hj
      rw [hv, hfin]
      constructor
      · intro e
        have e1 : r = 100 := Option.some.inj e
        subst e1
        rw [fillValue_blocked hr]
      · intro e
        have e1 : v = 100 := Option.some.inj e
        subst e1
        simp only [fillValue, if_true, Option.some.injEq] at hr
        rw [hr]
    · rw [hout p (by omega)]
  rw [key, hmark p]
  split
  · simp [*]
  · rename_i hany
    simp only [hany]
    rw [List.getElem?_replicate]
    split <;> simp

/-- C5: the grid of `cornerScan` at the pose `(0, 0, 0)` (resolution 0.1, threshold 1) has one
column and two rows, and its cell of row 1, column 0 (index `1 * 1 + 0`) is BLOCKED.  The only
beam within range, beam 0, has its endpoint at row 0, column 1: no beam within range has its
endpoint at row 1, column 0. -/
theorem scanToOccGrid_blocked_without_beam :
    scanToOccGrid ratLibm (1 / 10) 1 cornerScan pose0 = some cornerGrid ∧
    cornerGrid.grid[1 * 1 + 0]? = some 100 ∧
    endpointCell ratLibm (1 / 10) cornerScan pose0 cornerGrid 0 (1 / 10) = some (0, 1) ∧
    ∀ ir ∈ cornerScan.ranges.enum, ir.2 ≤ cornerScan.range_max * 1 →
      endpointCell ratLibm (1 / 10) cornerScan pose0 cornerGrid ir.1 ir.2 ≠ some (1, 0) := by
  refine ⟨?_, ?_, ?_, ?_⟩ <;> decide!

/-- C6: in scenario S1 the half-extents are 10 each way and the grid is 20 x 20 cells; the
endpoint of beam 1 is at row 20, column 10, whose index 410 is outside the 400 cells, and
scanToOccGrid has no result. -/
theorem scanToOccGrid_S1 :
    (gridFrame ratLibm (1 / 10) scanS1 pose0).xmin = 10 ∧
    (gridFrame ratLibm (1 / 10) scanS1 pose0).xmax = 10 ∧
    (gridFrame ratLibm (1 / 10) scanS1 pose0).ymin = 10 ∧
    (gridFrame ratLibm (1 / 10) scanS1 pose0).ymax = 10 ∧
    (gridFrame ratLibm (1 / 10) scanS1 pose0).width = 20 ∧
    (gridFrame ratLibm (1 / 10) scanS1 pose0).height = 20 ∧
    endpointCell ratLibm (1 / 10) scanS1 pose0 (gridFrame ratLibm (1 / 10) scanS1 pose0) 1 1
      = some (20, 10) ∧
    scanToOccGrid ratLibm (1 / 10) 1 scanS1 pose0 = none := by
  refine ⟨?_, ?_, ?_, ?_, ?_, ?_, ?_, ?_⟩ <;> decide!

/-! ## C8: scans at the maximum range -/

/-- C8 fails at `range_threshold = 1`: the one beam of `unitScan` has range `range_max`, is
not above `range_max * 1`, and its cell is BLOCKED in the grid produced at `farPose`. -/
theorem scanToOccGrid_max_range_blocked :
    (∀ r ∈ unitScan.ranges, r = unitScan.range_max) ∧
    scanToOccGrid ratLibm 10000001 1 unitScan farPose
      = some { ymax := 1, ymin := 0, xmax := 1, xmin := 0, height := 1, width := 1
               resolution := 10000001, grid := [100] } := by
  refine ⟨?_, ?_⟩ <;> decide!

theorem beamHits_in_range {L : Libm} {resolution max_range : ℚ} {scan : LaserScan}
    {pose : Pose} {G : ScanGrid} {p : Nat} {ir : Nat × ℚ}
    (h : beamHits L resolution max_range scan pose G p ir = true) : ir.2 ≤ max_range := by
  unfold beamHits at h
  split at h
  · exact absurd h (by simp)
  · rename_i hgt
    exact not_lt.mp hgt

/-- C8, amended: when every range equals `range_max`, `range_max` is positive and
`range_threshold` is below 1, a produced ScanGrid has no BLOCKED cell. -/
theorem scanToOccGrid_max_range_below_one (L : Libm) (resolution range_threshold : ℚ)
    (scan : LaserScan) (pose : Pose) (g : ScanGrid)
    (h : scanToOccGrid L resolution range_threshold scan pose = some g)
    (hall : ∀ r ∈ scan.ranges, r = scan.range_max) (hmax : 0 < scan.range_max)
    (hthr : range_threshold < 1) :
    ∀ v ∈ g.grid, v ≠ 100 := by
  intro v hv e
  subst e
  obtain ⟨p, hp⟩ := List.mem_iff_getElem?.mp hv
  have hany := (scanToOccGrid_blocked_iff h p).mp hp
  obtain ⟨ir, hir, hhit⟩ := List.any_eq_true.mp hany
  have hle := beamHits_in_range hhit
  rw [hall ir.2 (List.snd_mem_of_mem_enum hir)] at hle
  nlinarith

/-- The ranges of `squareScan` equal `range_max = 2`; at threshold 0.5 its grid, `squareGrid`,
has no BLOCKED cell. -/
theorem scanToOccGrid_max_range_below_one_witness :
    scanToOccGrid ratLibm 1 (1 / 2) squareScan pose0 = some squareGrid ∧
    ∀ v ∈ squareGrid.grid, v ≠ 100 :=
  ⟨by decide!,
    scanToOccGrid_max_range_below_one ratLibm 1 (1 / 2) squareScan pose0 squareGrid
      (by decide!) (by decide!) (by decide!) (by decide!)⟩

/-! ## Rounding -/

theorem cround_nonneg {q : ℚ} (h : 0 ≤ q) : 0 ≤ cround q := by
  unfold cround
  rw [if_pos h]
  exact Int.floor_nonneg.mpr (by linarith)

theorem cround_neg (q : ℚ) : cround (-q) = -cround q := by
  unfold cround
  rcases lt_trichotomy q 0 with h | h | h
  · have h1 : 0 ≤ -q := by linarith
    have h2 : ¬ 0 ≤ q := by linarith
    rw [if_pos h1, if_neg h2]
    simp
  · subst h
    have hz : ⌊(2 : ℚ)⁻¹⌋ = 0 := by norm_num [Int.floor_eq_zero_iff]
    simp [hz]
  · have h1 : ¬ 0 ≤ -q := by linarith
    have h2 : 0 ≤ q := by linarith
    rw [if_neg h1, if_pos h2]
    simp

theorem cround_mono {a b : ℚ} (h : a ≤ b) : cround a ≤ cround b := by
  unfold cround
  by_cases ha : 0 ≤ a
  · have hb : 0 ≤ b := le_trans ha h
    rw [if_pos ha, if_pos hb]
    exact Int.floor_mono (by linarith)
  · rw [if_neg ha]
    by_cases hb : 0 ≤ b
    · rw [if_pos hb]
      have h1 : 0 ≤ ⌊-a + 1 / 2⌋ := Int.floor_nonneg.mpr (by linarith)
      have h2 : 0 ≤ ⌊b + 1 / 2⌋ := Int.floor_nonneg.mpr (by linarith)
      omega
    · rw [if_neg hb]
      have : ⌊-b + 1 / 2⌋ ≤ ⌊-a + 1 / 2⌋ := Int.floor_mono (by linarith)
      omega

/-- Two roundings whose arguments sum to at least zero sum to at least zero. -/
theorem cround_add_nonneg {a b : ℚ} (h : 0 ≤ a + b) : 0 ≤ cround a + cround b := by
  have h1 : cround (-a) ≤ cround b := cround_mono (by linarith)
  rw [cround_neg] at h1
  omega

/-! ## The extent loop of scanToOccGrid -/

theorem scanBoundsStep_mono (L : Libm) (scan : LaserScan) (pose : Pose) (b : Bounds)
    (ir : Nat × ℚ) :
    b.xmax ≤ (scanBoundsStep L scan pose b ir).xmax ∧
    (scanBoundsStep L scan pose b ir).xmin ≤ b.xmin ∧
    b.ymax ≤ (scanBoundsStep L scan pose b ir).ymax ∧
    (scanBoundsStep L scan pose b ir).ymin ≤ b.ymin := by
  simp only [scanBoundsStep]
  refine ⟨?_, ?_, ?_, ?_⟩ <;> split <;> linarith

theorem scanBoundsStep_covers (L : Libm) (scan : LaserScan) (pose : Pose) (b : Bounds)
    (ir : Nat × ℚ) :
    pose.x + ir.2 * L.cos (beamAngle scan pose ir.1) ≤ (scanBoundsStep L scan pose b ir).xmax ∧
    (scanBoundsStep L scan pose b ir).xmin ≤ pose.x + ir.2 * L.cos (beamAngle scan pose ir.1) ∧
    pose.y + ir.2 * L.sin (beamAngle scan pose ir.1) ≤ (scanBoundsStep L scan pose b ir).ymax ∧
    (scanBoundsStep L scan pose b ir).ymin ≤ pose.y + ir.2 * L.sin (beamAngle scan pose ir.1) := by
  simp only [scanBoundsStep]
  refine ⟨?_, ?_, ?_, ?_⟩ <;> split <;> linarith

theorem scanBounds_fold_mono (L : Libm) (scan : LaserScan) (pose : Pose)
    (xs : List (Nat × ℚ)) : ∀ b : Bounds,
    b.xmax ≤ (xs.foldl (scanBoundsStep L scan pose) b).xmax ∧
    (xs.foldl (scanBoundsStep L scan pose) b).xmin ≤ b.xmin ∧
    b.ymax ≤ (xs.foldl (scanBoundsStep L scan pose) b).ymax ∧
    (xs.foldl (scanBoundsStep L scan pose) b).ymin ≤ b.ymin := by
  induction xs with
  | nil => intro b; simp
  | cons x xs ih =>
    intro b
    rw [List.foldl_cons]
    obtain ⟨h1, h2, h3, h4⟩ := ih (scanBoundsStep L scan pose b x)
    obtain ⟨k1, k2, k3, k4⟩ := scanBoundsStep_mono L scan pose b x
    exact ⟨k1.trans h1, h2.trans k2, k3.trans h3, h4.trans k4⟩

theorem scanBounds_fold_covers (L : Libm) (scan : LaserScan) (pose : Pose)
    (xs : List (Nat × ℚ)) : ∀ (b : Bounds) (ir : Nat × ℚ), ir ∈ xs →
    pose.x + ir.2 * L.cos (beamAngle scan pose ir.1)
      ≤ (xs.foldl (scanBoundsStep L scan pose) b).xmax ∧
    (xs.foldl (scanBoundsStep L scan pose) b).xmin
      ≤ pose.x + ir.2 * L.cos (beamAngle scan pose ir.1) ∧
    pose.y + ir.2 * L.sin (beamAngle scan pose ir.1)
      ≤ (xs.foldl (scanBoundsStep L scan pose) b).ymax ∧
    (xs.foldl (scanBoundsStep L scan pose) b).ymin
      ≤ pose.y + ir.2 * L.sin (beamAngle scan pose ir.1) := by
  induction xs with
  | nil => intro b ir h; simp at h
  | cons x xs ih =>
    intro b ir h
    rw [List.foldl_cons]
    rcases List.mem_cons.mp h with e | hm
    · subst e
      obtain ⟨h1, h2, h3, h4⟩ :=
        scanBounds_fold_mono L scan pose xs (scanBoundsStep L scan pose b ir)
      obtain ⟨k1, k2, k3, k4⟩ := scanBoundsStep_covers L scan pose b ir
      exact ⟨k1.trans h1, h2.trans k2, k3.trans h3, h4.trans k4⟩
    · exact ih _ ir hm

/-- The bounds of the extent loop enclose the endpoint of every beam. -/
theorem scanBounds_covers (L : Libm) (scan : LaserScan) (pose : Pose) (ir : Nat × ℚ)
    (h : ir ∈ scan.ranges.enum) :
    pose.x + ir.2 * L.cos (beamAngle scan pose ir.1) ≤ (scanBounds L scan pose).xmax ∧
    (scanBounds L scan pose).xmin ≤ pose.x + ir.2 * L.cos (beamAngle scan pose ir.1) ∧
    pose.y + ir.2 * L.sin (beamAngle scan pose ir.1) ≤ (scanBounds L scan pose).ymax ∧
    (scanBounds L scan pose).ymin ≤ pose.y + ir.2 * L.sin (beamAngle scan pose ir.1) :=
  scanBounds_fold_covers L scan pose _ _ ir h

/-! ## C10: the half-extents -/

/-- C10 fails: for the one beam of `eastScan` at the pose `(0, 0, 0)` and resolution 0.1
the grid produced has `xmin = -10`, `xmax = 10`, `ymin = ymax = 0`, width 0 and height 0. -/
theorem scanToOccGrid_negative_half_extent :
    eastScan.ranges ≠ [] ∧
    scanToOccGrid ratLibm (1 / 10) 1 eastScan pose0
      = some { ymax := 0, ymin := 0, xmax := 10, xmin := -10, height := 0, width := 0
               resolution := 1 / 10, grid := [] } := by
  refine ⟨?_, ?_⟩ <;> decide!

/-- C10, amended: for a positive resolution and a scan with at least one beam, the
half-extents that scanToOccGrid computes satisfy `xmin + xmax >= 0` and `ymin + ymax >= 0`,
and each half-extent is at least 0 whenever some beam has its endpoint on that side of the
pose (local `x >= 0` for `xmax`, `x <= 0` for `xmin`, `y >= 0` for `ymax`, `y <= 0` for
`ymin`). -/
theorem gridFrame_extents (L : Libm) (resolution : ℚ) (scan : LaserScan) (pose : Pose)
    (hres : 0 < resolution) (hne : scan.ranges ≠ []) :
    0 ≤ (gridFrame L resolution scan pose).xmin + (gridFrame L resolution scan pose).xmax ∧
    0 ≤ (gridFrame L resolution scan pose).ymin + (gridFrame L resolution scan pose).ymax ∧
    ((∃ ir ∈ scan.ranges.enum, 0 ≤ ir.2 * L.cos (beamAngle scan pose ir.1)) →
      0 ≤ (gridFrame L resolution scan pose).xmax) ∧
    ((∃ ir ∈ scan.ranges.enum, ir.2 * L.cos (beamAngle scan pose ir.1) ≤ 0) →
      0 ≤ (gridFrame L resolution scan pose).xmin) ∧
    ((∃ ir ∈ scan.ranges.enum, 0 ≤ ir.2 * L.sin (beamAngle scan pose ir.1)) →
      0 ≤ (gridFrame L resolution scan pose).ymax) ∧
    ((∃ ir ∈ scan.ranges.enum, ir.2 * L.sin (beamAngle scan pose ir.1) ≤ 0) →
      0 ≤ (gridFrame L resolution scan pose).ymin) := by
  have hex : ∃ ir, ir ∈ scan.ranges.enum := by
    cases hr : scan.ranges with
    | nil => exact absurd hr hne
    | cons r rs => exact ⟨(0, r), by simp [List.enum, List.enumFrom]⟩
  obtain ⟨ir0, hir0⟩ := hex
  obtain ⟨a1, a2, a3, a4⟩ := scanBounds_covers L scan pose ir0 hir0
  refine ⟨?_, ?_, ?_, ?_, ?_, ?_⟩ <;> simp only [gridFrame]
  · apply cround_add_nonneg
    rw [← add_div]
    exact div_nonneg (by linarith) hres.le
  · apply cround_add_nonneg
    rw [← add_div]
    exact div_nonneg (by linarith) hres.le
  · rintro ⟨ir, hir, hpos⟩
    obtain ⟨b1, _, _, _⟩ := scanBounds_covers L scan pose ir hir
    exact cround_nonneg (div_nonneg (by linarith) hres.le)
  · rintro ⟨ir, hir, hpos⟩
    obtain ⟨_, b2, _, _⟩ := scanBounds_covers L scan pose ir hir
    exact cround_nonneg (div_nonneg (by linarith) hres.le)
  · rintro ⟨ir, hir, hpos⟩
    obtain ⟨_, _, b3, _⟩ := scanBounds_covers L scan pose ir hir
    exact cround_nonneg (div_nonneg (by linarith) hres.le)
  · rintro ⟨ir, hir, hpos⟩
    obtain ⟨_, _, _, b4⟩ := scanBounds_covers L scan pose ir hir
    exact cround_nonneg (div_nonneg (by linarith) hres.le)

/-- For `eastScan` at resolution 0.1 the sums `xmin + xmax` and `ymin + ymax` are at least 0
(both are 0) and `xmax` is at least 0, its one beam pointing to positive `x`. -/
theorem gridFrame_extents_witness :
    (0 : ℚ) < 1 / 10 ∧ eastScan.ranges ≠ [] ∧
    0 ≤ (gridFrame ratLibm (1 / 10) eastScan pose0).xmin
      + (gridFrame ratLibm (1 / 10) eastScan pose0).xmax ∧
    0 ≤ (gridFrame ratLibm (1 / 10) eastScan pose0).ymin
      + (gridFrame ratLibm (1 / 10) eastScan pose0).ymax ∧
    0 ≤ (gridFrame ratLibm (1 / 10) eastScan pose0).xmax :=
  ⟨by decide!, by decide!,
    (gridFrame_extents ratLibm (1 / 10) eastScan pose0 (by decide!) (by decide!)).1,
    (gridFrame_extents ratLibm (1 / 10) eastScan pose0 (by decide!) (by decide!)).2.1,
    (gridFrame_extents ratLibm (1 / 10) eastScan pose0 (by decide!) (by decide!)).2.2.1
      ⟨(0, 1), by decide!, by decide!⟩⟩

/-! ## scanToOccGrid: one cell of the result -/

theorem scanToOccGrid_eq_frame {L : Libm} {resolution range_threshold : ℚ} {scan : LaserScan}
    {pose : Pose} {g : ScanGrid}
    (h : scanToOccGrid L resolution range_threshold scan pose = some g) :
    ∃ grid2 : List Int, g = { gridFrame L resolution scan pose with grid := grid2 } := by
  obtain ⟨_, _, _, _, _, hg⟩ := scanToOccGrid_eq_some h
  exact ⟨g.grid, hg⟩

/-- A cell of a produced grid is BLOCKED when a beam within range has its index, and is
what the triangulation pass computes for it otherwise. -/
theorem scanToOccGrid_cell {L : Libm} {resolution range_threshold : ℚ} {scan : LaserScan}
    {pose : Pose} {g : ScanGrid}
    (h : scanToOccGrid L resolution range_threshold scan pose = some g) (i j : Nat)
    (hi : (i : Int) < (gridFrame L resolution scan pose).height)
    (hj : (j : Int) < (gridFrame L resolution scan pose).width) :
    ∃ c : Int, g.grid[i * (gridFrame L resolution scan pose).width.toNat + j]? = some c ∧
      ((c = 100 ∧ scan.ranges.enum.any
          (beamHits L resolution (scan.range_max * range_threshold) scan pose
            (gridFrame L resolution scan pose)
            (i * (gridFrame L resolution scan pose).width.toNat + j)) = true) ∨
       (c ≠ 100 ∧ scan.ranges.enum.any
          (beamHits L resolution (scan.range_max * range_threshold) scan pose
            (gridFrame L resolution scan pose)
            (i * (gridFrame L resolution scan pose).width.toNat + j)) = false ∧
        cellClass L resolution scan pose (gridFrame L resolution scan pose) i j = some c)) := by
  obtain ⟨_, _, grid1, _, h2, _⟩ := scanToOccGrid_eq_some h
  obtain ⟨_, hin, _⟩ := triangulate_eq_some h2
  obtain ⟨v, r, _, hr, hfin⟩ := hin i j (by omega) (by omega)
  have hb := scanToOccGrid_blocked_iff h
    (i * (gridFrame L resolution scan pose).width.toNat + j)
  refine ⟨r, hfin, ?_⟩
  by_cases e : r = 100
  · subst e
    exact Or.inl ⟨rfl, hb.mp hfin⟩
  · have hnot : ¬ scan.ranges.enum.any
        (beamHits L resolution (scan.range_max * range_threshold) scan pose
          (gridFrame L resolution scan pose)
          (i * (gridFrame L resolution scan pose).width.toNat + j)) = true := by
      intro hany
      have := hb.mpr hany
      rw [hfin] at this
      exact e (Option.some.inj this)
    refine Or.inr ⟨e, by simpa using hnot, ?_⟩
    unfold fillValue at hr
    split at hr
    · exact absurd (Option.some.inj hr).symm e
    · exact hr

/-! ## scanToOccGrid: when there is a result -/

theorem loopM_total {α σ : Type} (P : σ → Prop) (body : α → σ → Option σ) (xs : List α)
    (hbody : ∀ x, x ∈ xs → ∀ s, P s → ∃ s1, body x s = some s1 ∧ P s1) :
    ∀ s, P s → ∃ s1, loopM xs body s = some s1 ∧ P s1 := by
  induction xs with
  | nil => intro s hs; exact ⟨s, rfl, hs⟩
  | cons x xs ih =>
    intro s hs
    obtain ⟨s1, h1, hp1⟩ := hbody x (List.mem_cons_self _ _) s hs
    obtain ⟨s2, h2, hp2⟩ := ih (fun y hy => hbody y (List.mem_cons_of_mem _ hy)) s1 hp1
    exact ⟨s2, by simp only [loopM, h1, h2], hp2⟩

theorem PI_pos : 0 < PI := by
  unfold PI
  norm_num

theorem wrapAngle_bounds (t : ℚ) : 0 ≤ wrapAngle t ∧ wrapAngle t < PI * 2 := by
  have hp := PI_pos
  have h2 : 0 < PI * 2 := by linarith
  have hu : t = t / PI / 2 * (PI * 2) := by field_simp
  have hfl := Int.floor_le (t / PI / 2)
  have hlt := Int.lt_floor_add_one (t / PI / 2)
  unfold wrapAngle
  constructor
  · have : (⌊t / PI / 2⌋ : ℚ) * (PI * 2) ≤ t / PI / 2 * (PI * 2) :=
      mul_le_mul_of_nonneg_right hfl h2.le
    linarith
  · have : t / PI / 2 * (PI * 2) < ((⌊t / PI / 2⌋ : ℚ) + 1) * (PI * 2) :=
      mul_lt_mul_of_pos_right hlt h2
    linarith

theorem cround_intCast (n : Int) : cround (n : ℚ) = n := by
  have hz : ⌊(1 : ℚ) / 2⌋ = 0 := by norm_num [Int.floor_eq_zero_iff]
  unfold cround
  split
  · rw [Int.floor_int_add, hz, add_zero]
  · rw [← Int.cast_neg, Int.floor_int_add, hz, add_zero, neg_neg]

theorem cround_abs_le {q : ℚ} {M : Int} (h : |q| ≤ (M : ℚ)) : -M ≤ cround q ∧ cround q ≤ M := by
  obtain ⟨h1, h2⟩ := abs_le.mp h
  have k1 := cround_mono h1
  have k2 := cround_mono h2
  rw [← Int.cast_neg, cround_intCast] at k1
  rw [cround_intCast] at k2
  exact ⟨k1, k2⟩

/-- The triangulation pass classifies every cell when `angle_increment` is not zero and a
full turn spans at most `2147483647` increments. -/
theorem cellClass_total (L : Libm) (resolution : ℚ) (scan : LaserScan) (pose : Pose)
    (G : ScanGrid) (i j : Nat) (hinc : scan.angle_increment ≠ 0)
    (hbig : PI * 2 ≤ 2147483647 * |scan.angle_increment|) :
    ∃ c, cellClass L resolution scan pose G i j = some c := by
  obtain ⟨w0, w1⟩ := wrapAngle_bounds
    (L.atan2 (cellOffset i G.ymin) (cellOffset j G.xmin) - pose.theta - scan.angle_min)
  have hpos : 0 < |scan.angle_increment| := abs_pos.mpr hinc
  have hq : |scanTheta L scan pose G i j / scan.angle_increment| ≤ ((2147483647 : Int) : ℚ) := by
    rw [abs_div, div_le_iff₀ hpos]
    unfold scanTheta
    rw [abs_of_nonneg w0]
    push_cast
    linarith
  obtain ⟨c1, c2⟩ := cround_abs_le hq
  have hidx : scanIndex L scan pose G i j
      = some (cround (scanTheta L scan pose G i j / scan.angle_increment)) := by
    unfold scanIndex toInt32
    rw [if_neg hinc, ctrunc_intCast, if_pos ⟨by omega, by omega⟩]
  unfold cellClass
  rw [hidx]
  simp only
  split
  · exact ⟨_, rfl⟩
  · rename_i hin
    have hlt : (cround (scanTheta L scan pose G i j / scan.angle_increment)).toNat
        < scan.ranges.length := by omega
    rw [List.getElem?_eq_getElem hlt]
    simp only
    split
    · exact ⟨_, rfl⟩
    · exact ⟨_, rfl⟩

theorem fillCell_total (L : Libm) (resolution : ℚ) (scan : LaserScan) (pose : Pose)
    (G : ScanGrid) (i j : Nat) (grid : List Int)
    (hi : i < G.height.toNat) (hj : j < G.width.toNat)
    (hlen : grid.length = G.height.toNat * G.width.toNat)
    (hinc : scan.angle_increment ≠ 0)
    (hbig : PI * 2 ≤ 2147483647 * |scan.angle_increment|) :
    ∃ grid1, fillCell L resolution scan pose G i j grid = some grid1 ∧
      grid1.length = G.height.toNat * G.width.toNat := by
  have hw : G.width = (G.width.toNat : Int) := by omega
  have hidx : (i : Int) * G.width + j = ((i * G.width.toNat + j : Nat) : Int) := by
    rw [hw]
    push_cast
    simp
  have hslot : i * G.width.toNat + j < grid.length := by
    rw [hlen]
    calc i * G.width.toNat + j < i * G.width.toNat + G.width.toNat := by omega
      _ = (i + 1) * G.width.toNat := by ring
      _ ≤ G.height.toNat * G.width.toNat := Nat.mul_le_mul_right _ hi
  obtain ⟨c, hc⟩ := cellClass_total L resolution scan pose G i j hinc hbig
  unfold fillCell
  simp only [hidx, load_natCast, List.getElem?_eq_getElem hslot]
  split
  · exact ⟨grid, rfl, hlen⟩
  · rw [hc]
    simp only
    have hst : store grid ((i * G.width.toNat + j : Nat) : Int) c
        = some (grid.set (i * G.width.toNat + j) c) := by
      unfold store
      rw [if_pos ⟨by omega, by exact_mod_cast hslot⟩, Int.toNat_ofNat]
    exact ⟨_, hst, by simp [hlen]⟩

theorem triangulate_total (L : Libm) (resolution : ℚ) (scan : LaserScan) (pose : Pose)
    (G : ScanGrid) (grid : List Int)
    (hlen : grid.length = G.height.toNat * G.width.toNat)
    (hinc : scan.angle_increment ≠ 0)
    (hbig : PI * 2 ≤ 2147483647 * |scan.angle_increment|) :
    ∃ grid1, triangulate L resolution scan pose G grid = some grid1 := by
  unfold triangulate
  obtain ⟨grid1, h1, _⟩ := loopM_total
    (fun s : List Int => s.length = G.height.toNat * G.width.toNat) _
    (List.range G.height.toNat)
    (fun i hi s hs => loopM_total
      (fun s : List Int => s.length = G.height.toNat * G.width.toNat)
      (fun j g1 => fillCell L resolution scan pose G i j g1)
      (List.range G.width.toNat)
      (fun j hj t ht => fillCell_total L resolution scan pose G i j t
        (List.mem_range.mp hi) (List.mem_range.mp hj) ht hinc hbig) s hs)
    grid hlen
  exact ⟨grid1, h1⟩

theorem markEndpoints_total (L : Libm) (resolution range_threshold : ℚ) (scan : LaserScan)
    (pose : Pose) (G : ScanGrid) (grid : List Int)
    (hbeams : ∀ ir ∈ scan.ranges.enum, ir.2 > scan.range_max * range_threshold ∨
      ∃ col row : Int, endpointCell L resolution scan pose G ir.1 ir.2 = some (col, row) ∧
        0 ≤ col * G.width + row ∧ col * G.width + row < grid.length) :
    ∃ grid1, markEndpoints L resolution range_threshold scan pose G grid = some grid1 ∧
      grid1.length = grid.length := by
  unfold markEndpoints
  refine loopM_total (fun s : List Int => s.length = grid.length) _ _ ?_ grid rfl
  intro ir hir s hs
  unfold markEndpoint
  rcases hbeams ir hir with hgt | ⟨col, row, hc, h0, h1⟩
  · rw [if_pos hgt]
    exact ⟨s, rfl, hs⟩
  · split
    · exact ⟨s, rfl, hs⟩
    · rw [hc]
      simp only
      have hst : store s (col * G.width + row) 100
          = some (s.set (col * G.width + row).toNat 100) := by
        unfold store
        rw [if_pos ⟨h0, by rw [hs]; exact h1⟩]
      exact ⟨_, hst, by simp [hs]⟩

/-- Function scanToOccGrid has a result when the resolution is not zero, the grid has a
width and a height of at least 0 and at most `2147483647` cells, every beam within range has
its cell index inside the grid, `angle_increment` is not zero and a full turn spans at most
`2147483647` increments. -/
theorem scanToOccGrid_total (L : Libm) (resolution range_threshold : ℚ) (scan : LaserScan)
    (pose : Pose) (hres : resolution ≠ 0)
    (hh : 0 ≤ (gridFrame L resolution scan pose).height)
    (hw : 0 ≤ (gridFrame L resolution scan pose).width)
    (hsz : (gridFrame L resolution scan pose).height * (gridFrame L resolution scan pose).width
      ≤ 2147483647)
    (hbeams : ∀ ir ∈ scan.ranges.enum, ir.2 > scan.range_max * range_threshold ∨
      ∃ col row : Int,
        endpointCell L resolution scan pose (gridFrame L resolution scan pose) ir.1 ir.2
          = some (col, row) ∧
        0 ≤ col * (gridFrame L resolution scan pose).width + row ∧
        col * (gridFrame L resolution scan pose).width + row
          < (gridFrame L resolution scan pose).height
            * (gridFrame L resolution scan pose).width)
    (hinc : scan.angle_increment ≠ 0)
    (hbig : PI * 2 ≤ 2147483647 * |scan.angle_increment|) :
    ∃ g, scanToOccGrid L resolution range_threshold scan pose = some g := by
  have hprod : 0 ≤ (gridFrame L resolution scan pose).height
      * (gridFrame L resolution scan pose).width := Int.mul_nonneg hh hw
  have hsize : toInt32 (((gridFrame L resolution scan pose).height : ℚ)
      * ((gridFrame L resolution scan pose).width : ℚ))
      = some ((gridFrame L resolution scan pose).height
        * (gridFrame L resolution scan pose).width) := by
    unfold toInt32
    rw [← Int.cast_mul, ctrunc_intCast, if_pos ⟨by omega, hsz⟩]
  have hlen0 : (List.replicate ((gridFrame L resolution scan pose).height
      * (gridFrame L resolution scan pose).width).toNat (-1 : Int)).length
      = (gridFrame L resolution scan pose).height.toNat
        * (gridFrame L resolution scan pose).width.toNat := by
    rw [List.length_replicate]
    zify
    rw [Int.toNat_of_nonneg hprod, Int.toNat_of_nonneg hh, Int.toNat_of_nonneg hw]
  obtain ⟨grid1, h1, hlen1⟩ := markEndpoints_total L resolution range_threshold scan pose
    (gridFrame L resolution scan pose)
    (List.replicate ((gridFrame L resolution scan pose).height
      * (gridFrame L resolution scan pose).width).toNat (-1))
    (by
      intro ir hir
      rcases hbeams ir hir with hgt | ⟨col, row, hc, h0, h1⟩
      · exact Or.inl hgt
      · refine Or.inr ⟨col, row, hc, h0, ?_⟩
        rw [List.length_replicate, Int.toNat_of_nonneg hprod]
        exact h1)
  obtain ⟨grid2, h2⟩ := triangulate_total L resolution scan pose
    (gridFrame L resolution scan pose) grid1 (hlen1.trans hlen0) hinc hbig
  refine ⟨{ gridFrame L resolution scan pose with grid := grid2 }, ?_⟩
  unfold scanToOccGrid
  rw [if_neg hres]
  simp only [hsize, h1, h2]
  rw [if_neg (by omega)]

/-! ## C7: cells of a beam beyond the range gate -/

/-- C7 fails in scenario S2 (resolution 0.1, threshold 0.05): the grid has 200 rows of 110
cells, the pose cell at row 100, column 100.  The cell one row above the pose cell maps to
beam 1, whose range 10 exceeds `range_max * range_threshold = 0.5`, and it is FREE. -/
theorem scanToOccGrid_S2_discarded_beam_free :
    ∃ g, scanToOccGrid ratLibm (1 / 10) (1 / 20) scanS2 pose0 = some g ∧
      g.height = 200 ∧ g.width = 110 ∧ g.ymin = 100 ∧ g.xmin = 100 ∧
      scanIndex ratLibm scanS2 pose0 g 101 100 = some 1 ∧
      scanS2.ranges[1]? = some 10 ∧ (10 : ℚ) > scanS2.range_max * (1 / 20) ∧
      g.grid[101 * 110 + 100]? = some 0 := by
  obtain ⟨g, hg⟩ := scanToOccGrid_total ratLibm (1 / 10) (1 / 20) scanS2 pose0
    (by decide!) (by decide!) (by decide!) (by decide!)
    (fun ir hir => Or.inl (by revert ir; decide!)) (by decide!) (by decide!)
  obtain ⟨c, hc, hcase⟩ := scanToOccGrid_cell hg 101 100 (by decide!) (by decide!)
  obtain ⟨grid2, rfl⟩ := scanToOccGrid_eq_frame hg
  have hw : (gridFrame ratLibm (1 / 10) scanS2 pose0).width.toNat = 110 := by decide!
  rw [hw] at hc hcase
  have hcell : cellClass ratLibm (1 / 10) scanS2 pose0
      (gridFrame ratLibm (1 / 10) scanS2 pose0) 101 100 = some 0 := by decide!
  have hmiss : scanS2.ranges.enum.any
      (beamHits ratLibm (1 / 10) (scanS2.range_max * (1 / 20)) scanS2 pose0
        (gridFrame ratLibm (1 / 10) scanS2 pose0) (101 * 110 + 100)) = false := by decide!
  have hc0 : c = 0 := by
    rcases hcase with ⟨_, hit⟩ | ⟨_, _, hcl⟩
    · rw [hmiss] at hit
      exact absurd hit (by simp)
    · rw [hcell] at hcl
      exact (Option.some.inj hcl).symm
  subst hc0
  refine ⟨_, hg, ?_, ?_, ?_, ?_, ?_, ?_, ?_, hc⟩
  · show (gridFrame ratLibm (1 / 10) scanS2 pose0).height = 200
    decide!
  · show (gridFrame ratLibm (1 / 10) scanS2 pose0).width = 110
    decide!
  · show (gridFrame ratLibm (1 / 10) scanS2 pose0).ymin = 100
    decide!
  · show (gridFrame ratLibm (1 / 10) scanS2 pose0).xmin = 100
    decide!
  · show scanIndex ratLibm scanS2 pose0 (gridFrame ratLibm (1 / 10) scanS2 pose0) 101 100
      = some 1
    decide!
  · decide!
  · decide!

theorem cellClass_of_index {L : Libm} {resolution : ℚ} {scan : LaserScan} {pose : Pose}
    {G : ScanGrid} {i j s : Nat} {r : ℚ}
    (hs : scanIndex L scan pose G i j = some (s : Int)) (hr : scan.ranges[s]? = some r) :
    cellClass L resolution scan pose G i j
      = some (if scanEnd L resolution G i j r > 0 then 0 else -1) := by
  have hlt : s < scan.ranges.length := (List.getElem?_eq_some_iff.mp hr).1
  unfold cellClass
  rw [hs]
  simp only
  rw [if_neg (by omega), Int.toNat_ofNat, hr]
  simp only
  split <;> rfl

/-- C7, amended: in a produced ScanGrid, a cell that is not BLOCKED and whose bearing maps
(by `scan_index`) to a beam with `ranges[scan_index] > range_max * range_threshold` is FREE
when `ranges[scan_index] - scan_dist * resolution > 0` and UNKNOWN otherwise: the range check
is applied to the endpoints only. -/
theorem scanToOccGrid_discarded_beam_cell (L : Libm) (resolution range_threshold : ℚ)
    (scan : LaserScan) (pose : Pose) (g : ScanGrid)
    (h : scanToOccGrid L resolution range_threshold scan pose = some g) (i j : Nat)
    (hi : (i : Int) < g.height) (hj : (j : Int) < g.width) (s : Nat) (r : ℚ)
    (hs : scanIndex L scan pose g i j = some (s : Int)) (hr : scan.ranges[s]? = some r)
    (_hout : r > scan.range_max * range_threshold)
    (hnb : g.grid[i * g.width.toNat + j]? ≠ some 100) :
    g.grid[i * g.width.toNat + j]?
      = some (if scanEnd L resolution g i j r > 0 then 0 else -1) := by
  obtain ⟨grid2, hg⟩ := scanToOccGrid_eq_frame h
  subst hg
  obtain ⟨c, hc, hcase⟩ := scanToOccGrid_cell h i j hi hj
  have hc1 : ({ gridFrame L resolution scan pose with grid := grid2 } : ScanGrid).grid[
      i * (gridFrame L resolution scan pose).width.toNat + j]? = some c := hc
  rcases hcase with ⟨e, _⟩ | ⟨_, _, hcl⟩
  · subst e
    exact absurd hc1 hnb
  · have hs1 : scanIndex L scan pose (gridFrame L resolution scan pose) i j = some (s : Int) := hs
    rw [cellClass_of_index hs1 hr] at hcl
    rw [← Option.some.inj hcl] at hc1
    exact hc1

/-- In `squareGrid` (threshold 0.5, `range_max = 2`) the cell of row 2, column 3 maps to beam 0,
of range 2 > 1, and is FREE. -/
theorem scanToOccGrid_discarded_beam_cell_witness :
    scanToOccGrid ratLibm 1 (1 / 2) squareScan pose0 = some squareGrid ∧
    scanIndex ratLibm squareScan pose0 squareGrid 2 3 = some 0 ∧
    (2 : ℚ) > squareScan.range_max * (1 / 2) ∧
    squareGrid.grid[2 * squareGrid.width.toNat + 3]? = some 0 :=
  ⟨by decide!, by decide!, by decide!,
    (scanToOccGrid_discarded_beam_cell ratLibm 1 (1 / 2) squareScan pose0 squareGrid
      (by decide!) 2 3 (by decide!) (by decide!) 0 2 (by decide!) (by decide!) (by decide!)
      (by decide!)).trans (by decide!)⟩

/-! ## C9: the pose cell -/

/-- C9 fails for `diagScan` at the pose `(0, 0, 0)` (resolution 1, threshold 0.5): the bearing
`atan2(0, 0) = 0` of the pose cell maps to beam index 4 of a scan of 3 beams, and the pose
cell, row 2, column 2 of `diagGrid`, is UNKNOWN. -/
theorem scanToOccGrid_pose_cell_unknown :
    diagScan.ranges ≠ [] ∧
    scanToOccGrid ratLibm 1 (1 / 2) diagScan pose0 = some diagGrid ∧
    scanIndex ratLibm diagScan pose0 diagGrid diagGrid.ymin.toNat diagGrid.xmin.toNat = some 4 ∧
    diagGrid.grid[diagGrid.ymin.toNat * diagGrid.width.toNat + diagGrid.xmin.toNat]?
      = some (-1) := by
  refine ⟨?_, ?_, ?_, ?_⟩ <;> decide!

theorem cellOffset_toNat {m : Int} (h : 0 ≤ m) : cellOffset m.toNat m = 0 := by
  unfold cellOffset
  have e : ((m.toNat : Int) : ℚ) = (m : ℚ) := by rw [Int.toNat_of_nonneg h]
  rw [Int.cast_natCast] at e
  rw [e, sub_self]

theorem cellClass_eq_zero_iff {L : Libm} {resolution : ℚ} {scan : LaserScan} {pose : Pose}
    {G : ScanGrid} {i j : Nat} :
    cellClass L resolution scan pose G i j = some 0 ↔
      ∃ (s : Nat) (r : ℚ), scanIndex L scan pose G i j = some (s : Int) ∧
        scan.ranges[s]? = some r ∧ scanEnd L resolution G i j r > 0 := by
  constructor
  · intro h
    unfold cellClass at h
    split at h
    · exact absurd h (by simp)
    · rename_i si hsi
      split at h
      · exact absurd (Option.some.inj h) (by omega)
      · rename_i hin
        split at h
        · exact absurd h (by simp)
        · rename_i r hr
          split at h
          · rename_i hend
            refine ⟨si.toNat, r, ?_, hr, hend⟩
            rw [hsi, Int.toNat_of_nonneg (by omega)]
          · exact absurd (Option.some.inj h) (by omega)
  · rintro ⟨s, r, hs, hr, hend⟩
    rw [cellClass_of_index hs hr, if_pos hend]

theorem scanIndex_pose_cell (L : Libm) (scan : LaserScan) (pose : Pose) (G : ScanGrid)
    (hy : 0 ≤ G.ymin) (hx : 0 ≤ G.xmin) :
    scanIndex L scan pose G G.ymin.toNat G.xmin.toNat
      = if scan.angle_increment = 0 then none
        else toInt32 (cround (wrapAngle (L.atan2 0 0 - pose.theta - scan.angle_min)
          / scan.angle_increment)) := by
  unfold scanIndex scanTheta
  rw [cellOffset_toNat hy, cellOffset_toNat hx]

theorem scanEnd_pose_cell (L : Libm) (resolution : ℚ) (G : ScanGrid) (r : ℚ)
    (hy : 0 ≤ G.ymin) (hx : 0 ≤ G.xmin) :
    scanEnd L resolution G G.ymin.toNat G.xmin.toNat r = r - L.sqrt 0 * resolution := by
  unfold scanEnd
  rw [cellOffset_toNat hy, cellOffset_toNat hx]
  norm_num

/-- C9, amended: when the pose cell (row `ymin`, column `xmin`) is a cell of the produced
ScanGrid and is not BLOCKED, it is FREE exactly when the beam index
`s = round(wrap(atan2(0, 0) - pose.theta - angle_min) / angle_increment)` is one of the scan
and `ranges[s] - sqrt(0) * resolution > 0`; it is UNKNOWN otherwise. -/
theorem scanToOccGrid_pose_cell (L : Libm) (resolution range_threshold : ℚ)
    (scan : LaserScan) (pose : Pose) (g : ScanGrid)
    (h : scanToOccGrid L resolution range_threshold scan pose = some g)
    (hy0 : 0 ≤ g.ymin) (hy1 : g.ymin < g.height) (hx0 : 0 ≤ g.xmin) (hx1 : g.xmin < g.width)
    (hnb : g.grid[g.ymin.toNat * g.width.toNat + g.xmin.toNat]? ≠ some 100) :
    (g.grid[g.ymin.toNat * g.width.toNat + g.xmin.toNat]? = some 0 ↔
      ∃ (s : Nat) (r : ℚ), scan.angle_increment ≠ 0 ∧
        toInt32 (cround (wrapAngle (L.atan2 0 0 - pose.theta - scan.angle_min)
          / scan.angle_increment)) = some (s : Int) ∧
        scan.ranges[s]? = some r ∧ r - L.sqrt 0 * resolution > 0) ∧
    (g.grid[g.ymin.toNat * g.width.toNat + g.xmin.toNat]? = some 0 ∨
      g.grid[g.ymin.toNat * g.width.toNat + g.xmin.toNat]? = some (-1)) := by
  obtain ⟨grid2, hg⟩ := scanToOccGrid_eq_frame h
  subst hg
  have ky0 : 0 ≤ (gridFrame L resolution scan pose).ymin := hy0
  have kx0 : 0 ≤ (gridFrame L resolution scan pose).xmin := hx0
  obtain ⟨c, hc, hcase⟩ := scanToOccGrid_cell h
    (gridFrame L resolution scan pose).ymin.toNat (gridFrame L resolution scan pose).xmin.toNat
    (by rw [Int.toNat_of_nonneg ky0]; exact hy1) (by rw [Int.toNat_of_nonneg kx0]; exact hx1)
  have hc1 : grid2[(gridFrame L resolution scan pose).ymin.toNat
      * (gridFrame L resolution scan pose).width.toNat
      + (gridFrame L resolution scan pose).xmin.toNat]? = some c := hc
  have hnb1 : grid2[(gridFrame L resolution scan pose).ymin.toNat
      * (gridFrame L resolution scan pose).width.toNat
      + (gridFrame L resolution scan pose).xmin.toNat]? ≠ some 100 := hnb
  show (grid2[(gridFrame L resolution scan pose).ymin.toNat
      * (gridFrame L resolution scan pose).width.toNat
      + (gridFrame L resolution scan pose).xmin.toNat]? = some 0 ↔ _) ∧
    (grid2[(gridFrame L resolution scan pose).ymin.toNat
      * (gridFrame L resolution scan pose).width.toNat
      + (gridFrame L resolution scan pose).xmin.toNat]? = some 0 ∨
     grid2[(gridFrame L resolution scan pose).ymin.toNat
      * (gridFrame L resolution scan pose).width.toNat
      + (gridFrame L resolution scan pose).xmin.toNat]? = some (-1))
  rw [hc1] at hnb1 ⊢
  rcases hcase with ⟨e, _⟩ | ⟨_, _, hcl⟩
  · exact absurd (congrArg some e) hnb1
  · refine ⟨?_, ?_⟩
    · have hiff := @cellClass_eq_zero_iff L resolution scan pose
        (gridFrame L resolution scan pose)
        (gridFrame L resolution scan pose).ymin.toNat
        (gridFrame L resolution scan pose).xmin.toNat
      rw [hcl, scanIndex_pose_cell L scan pose _ ky0 kx0] at hiff
      simp only [scanEnd_pose_cell L resolution _ _ ky0 kx0] at hiff
      rw [hiff]
      constructor
      · rintro ⟨s, r, hs, hr, hend⟩
        by_cases hinc : scan.angle_increment = 0
        · rw [if_pos hinc] at hs
          exact absurd hs (by simp)
        · rw [if_neg hinc] at hs
          exact ⟨s, r, hinc, hs, hr, hend⟩
      · rintro ⟨s, r, hinc, hs, hr, hend⟩
        exact ⟨s, r, by rw [if_neg hinc]; exact hs, hr, hend⟩
    · rcases cellClass_values hcl with e | e
      · exact Or.inr (congrArg some e)
      · exact Or.inl (congrArg some e)

/-- The pose cell of `squareGrid`, row 2, column 2, is not BLOCKED and is FREE: the bearing 0
maps to beam 0, of range 2. -/
theorem scanToOccGrid_pose_cell_witness :
    scanToOccGrid ratLibm 1 (1 / 2) squareScan pose0 = some squareGrid ∧
    0 ≤ squareGrid.ymin ∧ squareGrid.ymin < squareGrid.height ∧
    0 ≤ squareGrid.xmin ∧ squareGrid.xmin < squareGrid.width ∧
    squareGrid.grid[squareGrid.ymin.toNat * squareGrid.width.toNat + squareGrid.xmin.toNat]?
      = some 0 :=
  ⟨by decide!, by decide!, by decide!, by decide!, by decide!,
    (scanToOccGrid_pose_cell ratLibm 1 (1 / 2) squareScan pose0 squareGrid
      (by decide!) (by decide!) (by decide!) (by decide!) (by decide!) (by decide!)).1.mpr
      ⟨0, 2, by decide!, by decide!, by decide!, by decide!⟩⟩

/-! ## C11: the edges of addNode -/

theorem addNode_eq_some {L : Libm} {g g1 : Graph} {pose : Pose} {scan : LaserScan}
    (h : addNode L g pose scan = some g1) :
    ∃ sg : ScanGrid, scanToOccGrid L g.resolution g.range_threshold scan pose = some sg ∧
      g1.node_list = g.node_list ++ [{ pose := pose, scan := scan, scan_grid := sg }] ∧
      g1.edge_list = g.edge_list ++
        [{ parent := g.last_node, child := { pose := pose, scan := scan, scan_grid := sg } }] ∧
      g1.last_node = { pose := pose, scan := scan, scan_grid := sg } := by
  unfold addNode at h
  split at h
  · exact absurd h (by simp)
  · rename_i sg hsg
    have e := Option.some.inj h
    subst e
    exact ⟨sg, hsg, rfl, rfl, rfl⟩

/-- Every addNode call appends one node and one edge. -/
theorem addNodes_counts (L : Libm) (observations : List (Pose × LaserScan)) (g g1 : Graph)
    (h : addNodes L g observations = some g1) :
    (g1.node_list.length : Int) = g.node_list.length + observations.length ∧
    (g1.edge_list.length : Int) = g.edge_list.length + observations.length := by
  have hn := loopM_sum (fun s : Graph => (s.node_list.length : Int)) (fun _ => 1)
    (fun (o : Pose × LaserScan) g1 => addNode L g1 o.1 o.2)
    (fun o s s1 hs => by
      obtain ⟨sg, _, hnode, _, _⟩ := addNode_eq_some hs
      simp [hnode]) observations g g1 h
  have he := loopM_sum (fun s : Graph => (s.edge_list.length : Int)) (fun _ => 1)
    (fun (o : Pose × LaserScan) g1 => addNode L g1 o.1 o.2)
    (fun o s s1 hs => by
      obtain ⟨sg, _, _, hedge, _⟩ := addNode_eq_some hs
      simp [hedge]) observations g g1 h
  simp only [List.map_const', List.sum_replicate, nsmul_eq_mul, mul_one] at hn he
  exact ⟨hn, he⟩

/-- C11: on a new graph (resolution 0.1, threshold 1) the first addNode call leaves one edge,
from the default-constructed `last_node` to the new node, and the second call leaves two
edges for two nodes: the edge list has as many edges as nodes, not one fewer. -/
theorem addNode_first_edge :
    addNodes ratLibm (newGraph (1 / 10) 1) [(pose0, cornerScan)]
      = some { newGraph (1 / 10) 1 with
          node_list := [originNode]
          edge_list := [{ parent := defaultNode, child := originNode }]
          last_node := originNode } ∧
    addNodes ratLibm (newGraph (1 / 10) 1) [(pose0, cornerScan), (offsetNode.pose, cornerScan)]
      = some { newGraph (1 / 10) 1 with
          node_list := [originNode, offsetNode]
          edge_list := [{ parent := defaultNode, child := originNode },
                        { parent := originNode, child := offsetNode }]
          last_node := offsetNode } := by
  refine ⟨?_, ?_⟩ <;> decide!

/-! ## C14, C15: the extent and the size of the map -/

/-- C14: for the node built from `cornerScan` at the pose `(1, 0, 0)` and resolution 0.1,
generateMap computes `xmax = (1 + 1) * 0.1 = 0.2` and `xmin = (1 - 0) * 0.1 = 0.1`, where
`pose.x + grid.xmax * resolution = 1.1` and `pose.x - grid.xmin * resolution = 1`. -/
theorem mapBounds_adds_cells_to_metres :
    (addNodes ratLibm (newGraph (1 / 10) 1) [(offsetNode.pose, cornerScan)]).map
      Graph.node_list = some [offsetNode] ∧
    mapBounds (1 / 10) [offsetNode] = { xmax := 2 / 10, xmin := 1 / 10, ymax := 2 / 10, ymin := 0 } ∧
    offsetNode.pose.x + (offsetNode.scan_grid.xmax : ℚ) * (1 / 10) = 11 / 10 ∧
    offsetNode.pose.x - (offsetNode.scan_grid.xmin : ℚ) * (1 / 10) = 1 ∧
    offsetNode.pose.y + (offsetNode.scan_grid.ymax : ℚ) * (1 / 10) = 2 / 10 ∧
    offsetNode.pose.y - (offsetNode.scan_grid.ymin : ℚ) * (1 / 10) = 0 := by
  refine ⟨?_, ?_, ?_, ?_, ?_, ?_⟩ <;> decide!

/-- C15: two nodes built from `stepScan` at the poses `(0, 0, 0)` and `(0.5, 0, 0)`, resolution
1.  The `double` `map_width` is 1.5 and `map_height` is 2; the map produced has width 1 (not
`round(1.5) = 2`), height 2, and 3 cells (not `width * height`), placed with the row stride
1.5: local cell `(1, 0)` of the second node has the global index `trunc(1 * 1.5 + 1) = 2`. -/
theorem generateMap_truncated_size :
    (addNodes ratLibm (newGraph 1 1) [(stepNode.pose, stepScan), (halfStepNode.pose, stepScan)]).map
      Graph.node_list = some [stepNode, halfStepNode] ∧
    mapWidth 1 [stepNode, halfStepNode] = 3 / 2 ∧
    mapHeight 1 [stepNode, halfStepNode] = 2 ∧
    cround (mapWidth 1 [stepNode, halfStepNode]) = 2 ∧
    nodeOrigin 1 (mapBounds 1 [stepNode, halfStepNode]) halfStepNode = some (1, 0) ∧
    globalIndex (3 / 2) 1 0 1 0 = some 2 ∧
    generateMap (graphOf 1 [stepNode, halfStepNode])
      = some { graphOf 1 [stepNode, halfStepNode] with
          cur_map := { height := 2, width := 1, resolution := 1, data := [0, -1, 100] } } := by
  refine ⟨?_, ?_, ?_, ?_, ?_, ?_, ?_⟩ <;> decide!

/-! ## C18: the cell index of an endpoint -/

/-- C18: for the one beam of `unitScan` (range 1 = `range_max`, threshold 1) at the pose
`(0, 0, 0)` and resolution 0.1, the grid has width 0 and height 0; the beam is within range
and its endpoint is at row 0, column 0, index 0: the column is not below the width, the
index is not below `width * height`, and scanToOccGrid has no result. -/
theorem scanToOccGrid_endpoint_outside :
    unitScan.ranges ≠ [] ∧ (1 : ℚ) ≤ unitScan.range_max * 1 ∧
    (gridFrame ratLibm (1 / 10) unitScan pose0).width = 0 ∧
    (gridFrame ratLibm (1 / 10) unitScan pose0).height = 0 ∧
    endpointCell ratLibm (1 / 10) unitScan pose0 (gridFrame ratLibm (1 / 10) unitScan pose0) 0 1
      = some (0, 0) ∧
    scanToOccGrid ratLibm (1 / 10) 1 unitScan pose0 = none := by
  refine ⟨?_, ?_, ?_, ?_, ?_, ?_⟩ <;> decide!

/-! ## C12: a graph without nodes -/

/-- C12: a new graph of resolution 0.1 has no node, and generateMap does not stop there: the
bounds keep their start values, `map_height` and `map_width` are `-199999980`, which is no
`unsigned int` for `cur_map.info.height` and `cur_map.info.width`, `map_size` is
`39999992000000400`, and the run has no defined result. -/
theorem generateMap_no_node :
    (newGraph (1 / 10) 1).node_list = [] ∧
    mapBounds (1 / 10) (newGraph (1 / 10) 1).node_list = Bounds.init ∧
    mapHeight (1 / 10) (newGraph (1 / 10) 1).node_list = -199999980 ∧
    mapWidth (1 / 10) (newGraph (1 / 10) 1).node_list = -199999980 ∧
    toUInt32 (mapHeight (1 / 10) (newGraph (1 / 10) 1).node_list) = none ∧
    toUInt32 (mapWidth (1 / 10) (newGraph (1 / 10) 1).node_list) = none ∧
    mapHeight (1 / 10) (newGraph (1 / 10) 1).node_list
      * mapWidth (1 / 10) (newGraph (1 / 10) 1).node_list = 39999992000000400 ∧
    generateMap (newGraph (1 / 10) 1) = none := by
  refine ⟨?_, ?_, ?_, ?_, ?_, ?_, ?_, ?_⟩ <;> decide!

/-! ## C13: turning the pose and the scan against each other -/

theorem beamAngle_turn (scan : LaserScan) (pose : Pose) (d : ℚ) (i : Nat) :
    beamAngle { scan with angle_min := scan.angle_min - d }
      { pose with theta := pose.theta + d } i = beamAngle scan pose i := by
  simp only [beamAngle]
  ring

theorem scanBounds_turn (L : Libm) (scan : LaserScan) (pose : Pose) (d : ℚ) :
    scanBounds L { scan with angle_min := scan.angle_min - d }
      { pose with theta := pose.theta + d } = scanBounds L scan pose := by
  have hstep : scanBoundsStep L { scan with angle_min := scan.angle_min - d }
      { pose with theta := pose.theta + d } = scanBoundsStep L scan pose := by
    funext b ir
    simp only [scanBoundsStep, beamAngle_turn]
  simp only [scanBounds, hstep]

theorem gridFrame_turn (L : Libm) (resolution : ℚ) (scan : LaserScan) (pose : Pose) (d : ℚ) :
    gridFrame L resolution { scan with angle_min := scan.angle_min - d }
      { pose with theta := pose.theta + d } = gridFrame L resolution scan pose := by
  simp only [gridFrame, scanBounds_turn]

theorem endpointCell_turn (L : Libm) (resolution : ℚ) (scan : LaserScan) (pose : Pose) (d : ℚ)
    (G : ScanGrid) (i : Nat) (r : ℚ) :
    endpointCell L resolution { scan with angle_min := scan.angle_min - d }
      { pose with theta := pose.theta + d } G i r = endpointCell L resolution scan pose G i r := by
  unfold endpointCell
  rw [beamAngle_turn scan pose d i]

theorem markEndpoints_turn (L : Libm) (resolution range_threshold : ℚ) (scan : LaserScan)
    (pose : Pose) (d : ℚ) (G : ScanGrid) (grid : List Int) :
    markEndpoints L resolution range_threshold { scan with angle_min := scan.angle_min - d }
      { pose with theta := pose.theta + d } G grid
      = markEndpoints L resolution range_threshold scan pose G grid := by
  have hstep : ∀ m : ℚ, markEndpoint L resolution m { scan with angle_min := scan.angle_min - d }
      { pose with theta := pose.theta + d } G = markEndpoint L resolution m scan pose G := by
    intro m
    funext ir g
    simp only [markEndpoint, endpointCell_turn]
  simp only [markEndpoints, hstep]

theorem scanTheta_turn (L : Libm) (scan : LaserScan) (pose : Pose) (d : ℚ) (G : ScanGrid)
    (i j : Nat) :
    scanTheta L { scan with angle_min := scan.angle_min - d }
      { pose with theta := pose.theta + d } G i j = scanTheta L scan pose G i j := by
  simp only [scanTheta]
  congr 1
  ring

theorem triangulate_turn (L : Libm) (resolution : ℚ) (scan : LaserScan) (pose : Pose) (d : ℚ)
    (G : ScanGrid) (grid : List Int) :
    triangulate L resolution { scan with angle_min := scan.angle_min - d }
      { pose with theta := pose.theta + d } G grid = triangulate L resolution scan pose G grid := by
  have hidx : ∀ i j, scanIndex L { scan with angle_min := scan.angle_min - d }
      { pose with theta := pose.theta + d } G i j = scanIndex L scan pose G i j := by
    intro i j
    simp only [scanIndex, scanTheta_turn]
  have hclass : ∀ i j, cellClass L resolution { scan with angle_min := scan.angle_min - d }
      { pose with theta := pose.theta + d } G i j = cellClass L resolution scan pose G i j := by
    intro i j
    simp only [cellClass, hidx]
  have hfill : ∀ i j, fillCell L resolution { scan with angle_min := scan.angle_min - d }
      { pose with theta := pose.theta + d } G i j = fillCell L resolution scan pose G i j := by
    intro i j
    funext g
    simp only [fillCell, hclass]
  simp only [triangulate, hfill]

/-- C13: turning the pose by any angle `d` (a quarter turn in particular) and the scan's
`angle_min` by `-d` leaves every beam angle, hence every endpoint cell, the half-extents
and the whole result of scanToOccGrid (the BLOCKED cells among it) as they were. -/
theorem scanToOccGrid_turn (L : Libm) (resolution range_threshold : ℚ) (scan : LaserScan)
    (pose : Pose) (d : ℚ) :
    (∀ i, beamAngle { scan with angle_min := scan.angle_min - d }
      { pose with theta := pose.theta + d } i = beamAngle scan pose i) ∧
    (∀ G i r, endpointCell L resolution { scan with angle_min := scan.angle_min - d }
      { pose with theta := pose.theta + d } G i r = endpointCell L resolution scan pose G i r) ∧
    gridFrame L resolution { scan with angle_min := scan.angle_min - d }
      { pose with theta := pose.theta + d } = gridFrame L resolution scan pose ∧
    scanToOccGrid L resolution range_threshold { scan with angle_min := scan.angle_min - d }
      { pose with theta := pose.theta + d }
      = scanToOccGrid L resolution range_threshold scan pose := by
  refine ⟨beamAngle_turn scan pose d, endpointCell_turn L resolution scan pose d,
    gridFrame_turn L resolution scan pose d, ?_⟩
  simp only [scanToOccGrid, gridFrame_turn, markEndpoints_turn, triangulate_turn]

/-! ## C16: the wrapped angle -/

/-- C16: for `skewScan` at `skewPose`, resolution 1 and threshold 1, scanToOccGrid builds
`skewGrid`; the cell of row 0, column 1 lies due east of the pose, its angle before line 176
is 6.2831853075, and line 176, which wraps by twice the constant `PI = 3.141592654`, leaves
it as it is: the wrapped value is not below `2 * π` for the real number `π`, the beam index
is 4 and the cell is UNKNOWN. -/
theorem scanTheta_not_below_two_pi :
    scanToOccGrid ratLibm 1 1 skewScan skewPose = some skewGrid ∧
    ratLibm.atan2 (cellOffset 0 skewGrid.ymin) (cellOffset 1 skewGrid.xmin)
      - skewPose.theta - skewScan.angle_min = 62831853075 / 10000000000 ∧
    PI = 3141592654 / 1000000000 ∧
    scanTheta ratLibm skewScan skewPose skewGrid 0 1 = 62831853075 / 10000000000 ∧
    ¬ (((scanTheta ratLibm skewScan skewPose skewGrid 0 1 : ℚ) : ℝ) < 2 * Real.pi) ∧
    scanIndex ratLibm skewScan skewPose skewGrid 0 1 = some 4 ∧
    cellClass ratLibm 1 skewScan skewPose skewGrid 0 1 = some (-1) := by
  have hw : scanTheta ratLibm skewScan skewPose skewGrid 0 1
      = 62831853075 / 10000000000 := by decide!
  refine ⟨by decide!, by decide!, by decide!, hw, ?_, by decide!, by decide!⟩
  rw [hw]
  have hpi := Real.pi_lt_d20
  push_cast
  norm_num at hpi ⊢
  linarith

/-! ## C17: the free-space criterion -/

/-- C17: in a produced ScanGrid, a cell `(i, j)` that is not BLOCKED has a beam index
`scan_index = round(scan_theta / angle_increment)`; the cell is UNKNOWN when the index is
outside `[0, N)`, and otherwise it is FREE exactly when
`ranges[scan_index] - sqrt((j - xmin)^2 + (i - ymin)^2) * resolution > 0` and UNKNOWN when
not, so a FREE cell is nearer to the pose cell than the range of its beam. -/
theorem scanToOccGrid_free_space (L : Libm) (resolution range_threshold : ℚ)
    (scan : LaserScan) (pose : Pose) (g : ScanGrid)
    (h : scanToOccGrid L resolution range_threshold scan pose = some g) (i j : Nat)
    (hi : (i : Int) < g.height) (hj : (j : Int) < g.width)
    (hnb : g.grid[i * g.width.toNat + j]? ≠ some 100) :
    ∃ s : Int,
      s = cround (wrapAngle (L.atan2 ((i : ℚ) - g.ymin) ((j : ℚ) - g.xmin)
        - pose.theta - scan.angle_min) / scan.angle_increment) ∧
      ((s < 0 ∨ (scan.ranges.length : Int) ≤ s) →
        g.grid[i * g.width.toNat + j]? = some (-1)) ∧
      (0 ≤ s → s < scan.ranges.length →
        ∃ r : ℚ, scan.ranges[s.toNat]? = some r ∧
          (g.grid[i * g.width.toNat + j]? = some 0 ↔
            r - L.sqrt (((j : ℚ) - g.xmin) ^ 2 + ((i : ℚ) - g.ymin) ^ 2) * resolution > 0) ∧
          (g.grid[i * g.width.toNat + j]? = some (-1) ↔
            ¬ r - L.sqrt (((j : ℚ) - g.xmin) ^ 2 + ((i : ℚ) - g.ymin) ^ 2) * resolution > 0) ∧
          (g.grid[i * g.width.toNat + j]? = some 0 →
            L.sqrt (((j : ℚ) - g.xmin) ^ 2 + ((i : ℚ) - g.ymin) ^ 2) * resolution < r)) := by
  obtain ⟨grid2, hg⟩ := scanToOccGrid_eq_frame h
  subst hg
  obtain ⟨c, hc, hcase⟩ := scanToOccGrid_cell h i j hi hj
  have hc1 : grid2[i * (gridFrame L resolution scan pose).width.toNat + j]? = some c := hc
  have hnb1 : grid2[i * (gridFrame L resolution scan pose).width.toNat + j]? ≠ some 100 := hnb
  show ∃ s : Int,
      s = cround (wrapAngle (L.atan2 ((i : ℚ) - (gridFrame L resolution scan pose).ymin)
        ((j : ℚ) - (gridFrame L resolution scan pose).xmin)
        - pose.theta - scan.angle_min) / scan.angle_increment) ∧
      ((s < 0 ∨ (scan.ranges.length : Int) ≤ s) →
        grid2[i * (gridFrame L resolution scan pose).width.toNat + j]? = some (-1)) ∧
      (0 ≤ s → s < scan.ranges.length →
        ∃ r : ℚ, scan.ranges[s.toNat]? = some r ∧
          (grid2[i * (gridFrame L resolution scan pose).width.toNat + j]? = some 0 ↔
            r - L.sqrt (((j : ℚ) - (gridFrame L resolution scan pose).xmin) ^ 2
              + ((i : ℚ) - (gridFrame L resolution scan pose).ymin) ^ 2) * resolution > 0) ∧
          (grid2[i * (gridFrame L resolution scan pose).width.toNat + j]? = some (-1) ↔
            ¬ r - L.sqrt (((j : ℚ) - (gridFrame L resolution scan pose).xmin) ^ 2
              + ((i : ℚ) - (gridFrame L resolution scan pose).ymin) ^ 2) * resolution > 0) ∧
          (grid2[i * (gridFrame L resolution scan pose).width.toNat + j]? = some 0 →
            L.sqrt (((j : ℚ) - (gridFrame L resolution scan pose).xmin) ^ 2
              + ((i : ℚ) - (gridFrame L resolution scan pose).ymin) ^ 2) * resolution < r))
  rw [hc1] at hnb1 ⊢
  rcases hcase with ⟨e, _⟩ | ⟨_, _, hcl⟩
  · exact absurd (congrArg some e) hnb1
  · unfold cellClass at hcl
    split at hcl
    · exact absurd hcl (by simp)
    · rename_i s hs
      have hs1 : s = cround (scanTheta L scan pose (gridFrame L resolution scan pose) i j
          / scan.angle_increment) := by
        unfold scanIndex at hs
        split at hs
        · exact absurd hs (by simp)
        · exact toInt32_intCast hs
      refine ⟨s, hs1, ?_, ?_⟩
      · intro hout
        rw [if_pos (by omega)] at hcl
        exact hcl.symm
      · intro h0 hlt
        rw [if_neg (by omega)] at hcl
        split at hcl
        · exact absurd hcl (by simp)
        · rename_i r hr
          have hend : scanEnd L resolution (gridFrame L resolution scan pose) i j r
              = r - L.sqrt (((j : ℚ) - (gridFrame L resolution scan pose).xmin) ^ 2
                + ((i : ℚ) - (gridFrame L resolution scan pose).ymin) ^ 2) * resolution := rfl
          rw [hend] at hcl
          refine ⟨r, hr, ?_, ?_, ?_⟩
          · split at hcl
            · rename_i hpos
              rw [← Option.some.inj hcl]
              simp [hpos]
            · rename_i hpos
              rw [← Option.some.inj hcl]
              simp only [Option.some.injEq]
              constructor
              · intro e
                omega
              · intro e
                exact absurd e hpos
          · split at hcl
            · rename_i hpos
              rw [← Option.some.inj hcl]
              simp only [Option.some.injEq]
              constructor
              · intro e
                omega
              · intro e
                exact absurd hpos e
            · rename_i hpos
              rw [← Option.some.inj hcl]
              simp [hpos]
          · intro e
            split at hcl
            · rename_i hpos
              linarith
            · rw [← Option.some.inj hcl] at e
              exact absurd (Option.some.inj e) (by omega)

/-- In `squareGrid` the cell of row 3, column 3 is not BLOCKED, its beam index is 1, of range 2,
and it is FREE: `2 - sqrt(1 + 1) * 1 > 0`. -/
theorem scanToOccGrid_free_space_witness :
    scanToOccGrid ratLibm 1 (1 / 2) squareScan pose0 = some squareGrid ∧
    ((3 : Nat) : Int) < squareGrid.height ∧ ((3 : Nat) : Int) < squareGrid.width ∧
    squareGrid.grid[3 * squareGrid.width.toNat + 3]? ≠ some 100 ∧
    ∃ s : Int,
      s = cround (wrapAngle (ratLibm.atan2 (((3 : Nat) : ℚ) - squareGrid.ymin)
        (((3 : Nat) : ℚ) - squareGrid.xmin) - pose0.theta - squareScan.angle_min)
        / squareScan.angle_increment) ∧
      ((s < 0 ∨ (squareScan.ranges.length : Int) ≤ s) →
        squareGrid.grid[3 * squareGrid.width.toNat + 3]? = some (-1)) ∧
      (0 ≤ s → s < squareScan.ranges.length →
        ∃ r : ℚ, squareScan.ranges[s.toNat]? = some r ∧
          (squareGrid.grid[3 * squareGrid.width.toNat + 3]? = some 0 ↔
            r - ratLibm.sqrt ((((3 : Nat) : ℚ) - squareGrid.xmin) ^ 2
              + (((3 : Nat) : ℚ) - squareGrid.ymin) ^ 2) * 1 > 0) ∧
          (squareGrid.grid[3 * squareGrid.width.toNat + 3]? = some (-1) ↔
            ¬ r - ratLibm.sqrt ((((3 : Nat) : ℚ) - squareGrid.xmin) ^ 2
              + (((3 : Nat) : ℚ) - squareGrid.ymin) ^ 2) * 1 > 0) ∧
          (squareGrid.grid[3 * squareGrid.width.toNat + 3]? = some 0 →
            ratLibm.sqrt ((((3 : Nat) : ℚ) - squareGrid.xmin) ^ 2
              + (((3 : Nat) : ℚ) - squareGrid.ymin) ^ 2) * 1 < r)) :=
  ⟨by decide!, by decide!, by decide!, by decide!,
    scanToOccGrid_free_space ratLibm 1 (1 / 2) squareScan pose0 squareGrid (by decide!) 3 3
      (by decide!) (by decide!) (by decide!)⟩

/-! ## Loops whose steps commute -/

theorem loopM_cons {α σ : Type} (x : α) (xs : List α) (body : α → σ → Option σ) (s : σ) :
    loopM (x :: xs) body s = (body x s).bind (loopM xs body) := by
  simp only [loopM]
  cases body x s <;> rfl

theorem loopM_cons_fun {α σ : Type} (x : α) (xs : List α) (body : α → σ → Option σ) :
    loopM (x :: xs) body = fun t => (body x t).bind (loopM xs body) := by
  funext t
  exact loopM_cons x xs body t

/-- A step that commutes with every step of a loop commutes with the loop. -/
theorem step_loopM_comm {α σ : Type} (F : σ → Option σ) (g : α → σ → Option σ)
    (hcomm : ∀ y s, (F s).bind (g y) = (g y s).bind F) (ys : List α) :
    ∀ s, (F s).bind (loopM ys g) = (loopM ys g s).bind F := by
  induction ys with
  | nil =>
    intro s
    simp [loopM]
  | cons y ys ih =>
    intro s
    have hfun : loopM (y :: ys) g = fun t => (g y t).bind (loopM ys g) := by
      funext t
      exact loopM_cons y ys g t
    rw [hfun]
    simp only
    rw [← Option.bind_assoc, hcomm y s, Option.bind_assoc, Option.bind_assoc]
    congr 1
    funext t
    exact ih t

/-- Two loops commute when each step of one commutes with each step of the other. -/
theorem loopM_loopM_comm {α β σ : Type} (f : α → σ → Option σ) (g : β → σ → Option σ)
    (hcomm : ∀ x y s, (f x s).bind (g y) = (g y s).bind (f x)) (xs : List α) (ys : List β) :
    ∀ s, (loopM xs f s).bind (loopM ys g) = (loopM ys g s).bind (loopM xs f) := by
  induction xs with
  | nil =>
    intro s
    simp [loopM]
  | cons x xs ih =>
    intro s
    have hfun : loopM (x :: xs) f = fun t => (f x t).bind (loopM xs f) := by
      funext t
      exact loopM_cons x xs f t
    rw [hfun]
    simp only
    rw [Option.bind_assoc]
    have h1 : (fun t => (loopM xs f t).bind (loopM ys g))
        = fun t => (loopM ys g t).bind (loopM xs f) := by
      funext t
      exact ih t
    rw [h1, ← Option.bind_assoc, step_loopM_comm (f x) g (hcomm x) ys s, Option.bind_assoc]

/-- A loop whose steps commute gives the same result on every permutation of its values. -/
theorem loopM_perm {α σ : Type} (body : α → σ → Option σ)
    (hcomm : ∀ x y s, (body x s).bind (body y) = (body y s).bind (body x))
    {xs ys : List α} (hp : xs.Perm ys) : ∀ s, loopM xs body s = loopM ys body s := by
  induction hp with
  | nil => intro s; rfl
  | cons x _ ih =>
    intro s
    rw [loopM_cons, loopM_cons]
    congr 1
    funext t
    exact ih t
  | swap x y l =>
    intro s
    rw [loopM_cons, loopM_cons, loopM_cons_fun x l, loopM_cons_fun y l]
    rw [← Option.bind_assoc, ← Option.bind_assoc, hcomm y x s]
  | trans _ _ ih1 ih2 =>
    intro s
    rw [ih1 s, ih2 s]

/-! ## C19: the order of the nodes -/

theorem bump_eq_some_iff {v v1 : List Int} {i : Int} :
    bump v i = some v1 ↔
      ∃ a : Int, 0 ≤ i ∧ v[i.toNat]? = some a ∧ a ≠ 2147483647 ∧ v1 = v.set i.toNat (a + 1) := by
  unfold bump
  constructor
  · intro h
    split at h
    · exact absurd h (by simp)
    · rename_i a ha
      obtain ⟨h0, hget⟩ := load_eq_some ha
      split at h
      · exact absurd h (by simp)
      · rename_i hmax
        obtain ⟨_, _, e⟩ := store_eq_some h
        exact ⟨a, h0, hget, hmax, e⟩
  · rintro ⟨a, h0, hget, hmax, rfl⟩
    have hl : load v i = some a := by
      unfold load
      rw [if_pos h0, hget]
    have hlt : i.toNat < v.length := (List.getElem?_eq_some_iff.mp hget).1
    rw [hl]
    simp only
    rw [if_neg hmax]
    unfold store
    rw [if_pos ⟨h0, by omega⟩]

/-- Two increments in a row can be done in the other order. -/
theorem bump_swap {v v1 v2 : List Int} {i j : Int}
    (h1 : bump v i = some v1) (h2 : bump v1 j = some v2) :
    ∃ w, bump v j = some w ∧ bump w i = some v2 := by
  by_cases hij : i = j
  · subst hij
    exact ⟨v1, h1, h2⟩
  · obtain ⟨a, hi0, ha, hamax, rfl⟩ := bump_eq_some_iff.mp h1
    obtain ⟨b, hj0, hb, hbmax, rfl⟩ := bump_eq_some_iff.mp h2
    have hne : i.toNat ≠ j.toNat := by omega
    rw [List.getElem?_set_ne hne] at hb
    refine ⟨v.set j.toNat (b + 1), bump_eq_some_iff.mpr ⟨b, hj0, hb, hbmax, rfl⟩, ?_⟩
    refine bump_eq_some_iff.mpr ⟨a, hi0, ?_, hamax, ?_⟩
    · rw [List.getElem?_set_ne (Ne.symm hne)]
      exact ha
    · exact List.set_comm _ _ _ hne

/-- The same for increments that are done only under a condition. -/
theorem bumpIf_swap {v v1 v2 : List Int} {i j : Int} {p q : Prop} [Decidable p] [Decidable q]
    (h1 : (if p then bump v i else some v) = some v1)
    (h2 : (if q then bump v1 j else some v1) = some v2) :
    ∃ w, (if q then bump v j else some v) = some w ∧
      (if p then bump w i else some w) = some v2 := by
  by_cases hp : p
  · by_cases hq : q
    · rw [if_pos hp] at h1
      rw [if_pos hq] at h2
      obtain ⟨w, k1, k2⟩ := bump_swap h1 h2
      exact ⟨w, by rw [if_pos hq]; exact k1, by rw [if_pos hp]; exact k2⟩
    · rw [if_pos hp] at h1
      rw [if_neg hq] at h2
      have e := Option.some.inj h2
      subst e
      exact ⟨v, by rw [if_neg hq], by rw [if_pos hp]; exact h1⟩
  · rw [if_neg hp] at h1
    have e := Option.some.inj h1
    subst e
    exact ⟨v2, h2, by rw [if_neg hp]⟩

theorem voteCell_eq_some_iff {map_width : ℚ} {node : Node} {node_x node_y : Int} {j k : Nat}
    {c c1 : Counters} :
    voteCell map_width node node_x node_y j k c = some c1 ↔
      ∃ gi value : Int, globalIndex map_width node_x node_y j k = some gi ∧
        load node.scan_grid.grid (j * node.scan_grid.width + k) = some value ∧
        bump c.pos_seen gi = some c1.pos_seen ∧
        (if value = 100 then bump c.pos_blocked gi else some c.pos_blocked)
          = some c1.pos_blocked ∧
        (if value = 0 then bump c.pos_free gi else some c.pos_free) = some c1.pos_free := by
  unfold voteCell
  constructor
  · intro h
    split at h
    · exact absurd h (by simp)
    · rename_i gi hg
      split at h
      · exact absurd h (by simp)
      · rename_i seen hs
        split at h
        · exact absurd h (by simp)
        · rename_i value hv
          split at h
          · exact absurd h (by simp)
          · rename_i blocked hb
            split at h
            · exact absurd h (by simp)
            · rename_i free hf
              have e := Option.some.inj h
              subst e
              exact ⟨gi, value, hg, hv, hs, hb, hf⟩
  · rintro ⟨gi, value, hg, hv, hs, hb, hf⟩
    rw [hg]
    simp only
    rw [hs]
    simp only
    rw [hv]
    simp only
    rw [hb]
    simp only
    rw [hf]

/-- Two votes in a row can be cast in the other order. -/
theorem voteCell_swap {map_width : ℚ} {n1 n2 : Node} {x1 y1 x2 y2 : Int} {j1 k1 j2 k2 : Nat}
    {c c1 c2 : Counters}
    (h1 : voteCell map_width n1 x1 y1 j1 k1 c = some c1)
    (h2 : voteCell map_width n2 x2 y2 j2 k2 c1 = some c2) :
    ∃ w, voteCell map_width n2 x2 y2 j2 k2 c = some w ∧
      voteCell map_width n1 x1 y1 j1 k1 w = some c2 := by
  obtain ⟨g1, v1, hg1, hv1, hs1, hb1, hf1⟩ := voteCell_eq_some_iff.mp h1
  obtain ⟨g2, v2, hg2, hv2, hs2, hb2, hf2⟩ := voteCell_eq_some_iff.mp h2
  obtain ⟨ws, ks1, ks2⟩ := bump_swap hs1 hs2
  obtain ⟨wb, kb1, kb2⟩ := bumpIf_swap hb1 hb2
  obtain ⟨wf, kf1, kf2⟩ := bumpIf_swap hf1 hf2
  exact ⟨{ pos_seen := ws, pos_free := wf, pos_blocked := wb },
    voteCell_eq_some_iff.mpr ⟨g2, v2, hg2, hv2, ks1, kb1, kf1⟩,
    voteCell_eq_some_iff.mpr ⟨g1, v1, hg1, hv1, ks2, kb2, kf2⟩⟩

theorem bind_comm_of_swap {σ : Type} (F G : σ → Option σ)
    (hFG : ∀ s s1 s2, F s = some s1 → G s1 = some s2 → ∃ w, G s = some w ∧ F w = some s2)
    (hGF : ∀ s s1 s2, G s = some s1 → F s1 = some s2 → ∃ w, F s = some w ∧ G w = some s2)
    (s : σ) : (F s).bind G = (G s).bind F := by
  apply Option.ext
  intro r
  simp only [Option.mem_def, Option.bind_eq_some]
  constructor
  · rintro ⟨s1, k1, k2⟩
    exact hFG s s1 r k1 k2
  · rintro ⟨s1, k1, k2⟩
    exact hGF s s1 r k1 k2

theorem voteCell_comm (map_width : ℚ) (n1 n2 : Node) (x1 y1 x2 y2 : Int) (j1 k1 j2 k2 : Nat)
    (c : Counters) :
    (voteCell map_width n1 x1 y1 j1 k1 c).bind (voteCell map_width n2 x2 y2 j2 k2)
      = (voteCell map_width n2 x2 y2 j2 k2 c).bind (voteCell map_width n1 x1 y1 j1 k1) :=
  bind_comm_of_swap _ _ (fun _ _ _ h1 h2 => voteCell_swap h1 h2)
    (fun _ _ _ h1 h2 => voteCell_swap h1 h2) c

/-- The votes of one node, as one loop over its cells. -/
theorem voteNode_flat (resolution : ℚ) (b : Bounds) (map_width : ℚ) (node : Node)
    (c : Counters) :
    voteNode resolution b map_width node c =
      match nodeOrigin resolution b node with
      | none => none
      | some o =>
        loopM ((List.range node.scan_grid.height.toNat).flatMap
            (fun j => (List.range node.scan_grid.width.toNat).map (fun k => (j, k))))
          (fun jk t => voteCell map_width node o.1 o.2 jk.1 jk.2 t) c := by
  unfold voteNode
  split
  · rename_i ho
    rw [ho]
  · rename_i node_x node_y ho
    rw [ho]
    exact loopM_nested _ _ (fun j k t => voteCell map_width node node_x node_y j k t) c

theorem bind_none_fun {α β : Type} (o : Option α) : o.bind (fun _ => (none : Option β)) = none := by
  cases o <;> rfl

theorem voteNode_comm (resolution : ℚ) (b : Bounds) (map_width : ℚ) (n1 n2 : Node)
    (c : Counters) :
    (voteNode resolution b map_width n1 c).bind (voteNode resolution b map_width n2)
      = (voteNode resolution b map_width n2 c).bind (voteNode resolution b map_width n1) := by
  have hf1 : voteNode resolution b map_width n1 = fun c =>
      match nodeOrigin resolution b n1 with
      | none => none
      | some o =>
        loopM ((List.range n1.scan_grid.height.toNat).flatMap
            (fun j => (List.range n1.scan_grid.width.toNat).map (fun k => (j, k))))
          (fun jk t => voteCell map_width n1 o.1 o.2 jk.1 jk.2 t) c := by
    funext t
    exact voteNode_flat resolution b map_width n1 t
  have hf2 : voteNode resolution b map_width n2 = fun c =>
      match nodeOrigin resolution b n2 with
      | none => none
      | some o =>
        loopM ((List.range n2.scan_grid.height.toNat).flatMap
            (fun j => (List.range n2.scan_grid.width.toNat).map (fun k => (j, k))))
          (fun jk t => voteCell map_width n2 o.1 o.2 jk.1 jk.2 t) c := by
    funext t
    exact voteNode_flat resolution b map_width n2 t
  rw [hf1, hf2]
  cases nodeOrigin resolution b n1 with
  | none =>
    simp only [Option.none_bind]
    exact (bind_none_fun _).symm
  | some o1 =>
    cases nodeOrigin resolution b n2 with
    | none =>
      simp only [Option.none_bind]
      exact bind_none_fun _
    | some o2 =>
      simp only
      exact loopM_loopM_comm _ _
        (fun x y s => voteCell_comm map_width n1 n2 o1.1 o1.2 o2.1 o2.2 x.1 x.2 y.1 y.2 s) _ _ c

theorem max_step_comm (b v1 v2 : ℚ) :
    (if (if b < v1 then v1 else b) < v2 then v2 else (if b < v1 then v1 else b))
      = (if (if b < v2 then v2 else b) < v1 then v1 else (if b < v2 then v2 else b)) := by
  split_ifs <;> linarith

theorem min_step_comm (b v1 v2 : ℚ) :
    (if (if b > v1 then v1 else b) > v2 then v2 else (if b > v1 then v1 else b))
      = (if (if b > v2 then v2 else b) > v1 then v1 else (if b > v2 then v2 else b)) := by
  split_ifs <;> linarith

theorem mapBoundsStep_comm (resolution : ℚ) (b : Bounds) (n1 n2 : Node) :
    mapBoundsStep resolution (mapBoundsStep resolution b n1) n2
      = mapBoundsStep resolution (mapBoundsStep resolution b n2) n1 := by
  simp only [mapBoundsStep, Bounds.mk.injEq]
  exact ⟨max_step_comm _ _ _, min_step_comm _ _ _, max_step_comm _ _ _, min_step_comm _ _ _⟩

theorem mapBounds_perm (resolution : ℚ) {l1 l2 : List Node} (hp : l1.Perm l2) :
    mapBounds resolution l1 = mapBounds resolution l2 :=
  List.Perm.foldl_eq' hp (fun x _ y _ z => mapBoundsStep_comm resolution z x y) _

/-- C19: generateMap gives the same outcome on every permutation of the node list: either no
map for both orders, or maps of the same width, height and data. -/
theorem generateMap_perm (g : Graph) (nodes : List Node) (hp : nodes.Perm g.node_list) :
    (generateMap { g with node_list := nodes }).map Graph.cur_map
      = (generateMap g).map Graph.cur_map := by
  have hb : mapBounds g.resolution nodes = mapBounds g.resolution g.node_list :=
    mapBounds_perm g.resolution hp
  have hw : mapWidth g.resolution nodes = mapWidth g.resolution g.node_list := by
    simp only [mapWidth, hb]
  have hh : mapHeight g.resolution nodes = mapHeight g.resolution g.node_list := by
    simp only [mapHeight, hb]
  have hloop : ∀ c, loopM nodes (voteNode g.resolution (mapBounds g.resolution g.node_list)
        (mapWidth g.resolution g.node_list)) c
      = loopM g.node_list (voteNode g.resolution (mapBounds g.resolution g.node_list)
        (mapWidth g.resolution g.node_list)) c :=
    loopM_perm _ (fun x y s => voteNode_comm _ _ _ x y s) hp
  unfold generateMap
  simp only [hb, hw, hh, hloop]
  split
  · rfl
  · split
    · split
      · rfl
      · split
        · rfl
        · rfl
    · rfl

/-- The two nodes of scenario C15 in the other order: the same map. -/
theorem generateMap_perm_witness :
    [halfStepNode, stepNode].Perm (graphOf 1 [stepNode, halfStepNode]).node_list ∧
    (generateMap { graphOf 1 [stepNode, halfStepNode] with
        node_list := [halfStepNode, stepNode] }).map Graph.cur_map
      = some { height := 2, width := 1, resolution := 1, data := [0, -1, 100] } :=
  ⟨List.Perm.swap _ _ _,
    (generateMap_perm (graphOf 1 [stepNode, halfStepNode]) [halfStepNode, stepNode]
      (List.Perm.swap _ _ _)).trans (by decide!)⟩

/-! ## C20: what a node of UNKNOWN cells leaves unchanged -/

theorem voteNode_unknown {resolution : ℚ} {b : Bounds} {map_width : ℚ} {node : Node}
    {c c1 : Counters} (hall : ∀ v ∈ node.scan_grid.grid, v = -1)
    (h : voteNode resolution b map_width node c = some c1) :
    c1.pos_free = c.pos_free ∧ c1.pos_blocked = c.pos_blocked := by
  unfold voteNode at h
  split at h
  · exact absurd h (by simp)
  · rename_i node_x node_y _
    refine loopM_invariant
      (fun s : Counters => s.pos_free = c.pos_free ∧ s.pos_blocked = c.pos_blocked) _ _ ?_
      c c1 ⟨rfl, rfl⟩ h
    intro j _ s s1 hs hj
    refine loopM_invariant
      (fun s : Counters => s.pos_free = c.pos_free ∧ s.pos_blocked = c.pos_blocked) _ _ ?_
      s s1 hs hj
    intro k _ t t1 ht hk
    obtain ⟨gi, value, _, hv, _, hb, hf⟩ := voteCell_eq_some_iff.mp hk
    have hval : value = -1 := by
      obtain ⟨_, hget⟩ := load_eq_some hv
      exact hall value (List.mem_iff_getElem?.mpr ⟨_, hget⟩)
    subst hval
    rw [if_neg (by omega)] at hb hf
    exact ⟨(Option.some.inj hf).symm.trans ht.1, (Option.some.inj hb).symm.trans ht.2⟩

theorem resolveStep_congr {c c1 : Counters} (hf : c1.pos_free = c.pos_free)
    (hb : c1.pos_blocked = c.pos_blocked) : resolveStep c1 = resolveStep c := by
  funext i data
  simp only [resolveStep, hf, hb]

/-- C20: appending a node whose local grid is entirely UNKNOWN and which leaves the bounds
`xmax, xmin, ymax, ymin` of the map as they are leaves the map unchanged: when generateMap
produces a map for the extended node list, it produces the same map, with the same data
array, for the list without the node. -/
theorem generateMap_append_unknown (g : Graph) (n : Node)
    (hall : ∀ v ∈ n.scan_grid.grid, v = -1)
    (hb : mapBounds g.resolution (g.node_list ++ [n]) = mapBounds g.resolution g.node_list)
    (g2 : Graph) (h : generateMap { g with node_list := g.node_list ++ [n] } = some g2) :
    ∃ g1, generateMap g = some g1 ∧ g1.cur_map = g2.cur_map := by
  obtain ⟨height, width, size, c2, hres, h1, h2, h3, hvote, hresolve, hg2⟩ :=
    generateMap_eq_some h
  have hw : mapWidth g.resolution (g.node_list ++ [n]) = mapWidth g.resolution g.node_list := by
    simp only [mapWidth, hb]
  have hh : mapHeight g.resolution (g.node_list ++ [n])
      = mapHeight g.resolution g.node_list := by
    simp only [mapHeight, hb]
  simp only [hw, hh, hb] at h1 h2 h3 hvote hresolve
  rw [loopM_append] at hvote
  cases hc1 : loopM g.node_list (voteNode g.resolution (mapBounds g.resolution g.node_list)
      (mapWidth g.resolution g.node_list))
      { pos_seen := List.replicate size 0, pos_free := List.replicate size 0
        pos_blocked := List.replicate size 0 } with
  | none =>
    rw [hc1] at hvote
    exact absurd hvote (by simp)
  | some c1 =>
    rw [hc1] at hvote
    simp only [Option.some_bind, loopM] at hvote
    cases hn : voteNode g.resolution (mapBounds g.resolution g.node_list)
        (mapWidth g.resolution g.node_list) n c1 with
    | none =>
      rw [hn] at hvote
      exact absurd hvote (by simp)
    | some c3 =>
      rw [hn] at hvote
      have e : c3 = c2 := Option.some.inj hvote
      subst e
      obtain ⟨kf, kb⟩ := voteNode_unknown hall hn
      rw [resolveStep_congr kf kb] at hresolve
      refine ⟨{ g with cur_map := { height := height, width := width
                                    resolution := g.resolution, data := g2.cur_map.data } },
        ?_, ?_⟩
      · unfold generateMap
        rw [if_neg hres]
        simp only [h1, h2, h3, hc1, hresolve]
      · rw [hg2]

/-- At resolution 1, addNode builds `stepNode` and `veilNode`; `veilNode` is one UNKNOWN cell
and leaves the bounds of the map of `stepNode` as they are: generateMap produces the data
`[0, 100]` with it and without it. -/
theorem generateMap_append_unknown_witness :
    (addNodes ratLibm (newGraph 1 1) [(stepNode.pose, stepScan), (veilNode.pose, veilScan)]).map
      Graph.node_list = some ([stepNode] ++ [veilNode]) ∧
    (∀ v ∈ veilNode.scan_grid.grid, v = -1) ∧
    mapBounds 1 ([stepNode] ++ [veilNode]) = mapBounds 1 [stepNode] ∧
    generateMap (graphOf 1 ([stepNode] ++ [veilNode]))
      = some { graphOf 1 ([stepNode] ++ [veilNode]) with
          cur_map := { height := 2, width := 1, resolution := 1, data := [0, 100] } } ∧
    ∃ g1, generateMap (graphOf 1 [stepNode]) = some g1 ∧
      g1.cur_map = { height := 2, width := 1, resolution := 1, data := [0, 100] } :=
  ⟨by decide!, by decide!, by decide!, by decide!,
    generateMap_append_unknown (graphOf 1 [stepNode]) veilNode (by decide!) (by decide!)
      { graphOf 1 ([stepNode] ++ [veilNode]) with
        cur_map := { height := 2, width := 1, resolution := 1, data := [0, 100] } }
      (by decide!)⟩

end GraphSlam
